import Mathlib

/-!
# Pixie collector (Stirling) and agent manager: embedding and properties

Shallow embedding of `src/stirling/stirling.cc` (class `StirlingImpl`) and of
`src/vizier/services/agent/manager/manager.cc` (class `Manager`).

Conventions of the embedding

* Objects are records; a member function is a function from the object's state to a
  `Run`: how the call ended, the state it left, and the calls it made on its
  collaborators, in program order.
* `PL_CHECK_OK(e)` and `LOG_IF(FATAL, c)` end the process when the status is not OK
  (when `c` holds): the run ends with `Outcome.fatal` at that point.
  `PL_RETURN_IF_ERROR(e)` returns the status of `e` to the caller when it is not OK.
* `std::chrono::milliseconds` values are integers (`Int`), in milliseconds.
* Classes that are only declared in headers outside these two files (`InfoClassManager`,
  `PubSubManager`, `SourceConnector`, `DataTable`, `SourceRegistry`) are parameters: the
  record `Deps` holds their state types and the member functions that `StirlingImpl`
  calls. The theorems hold for every such record; `specDeps` is one instance, written
  from the specification, at which they are evaluated, and `eagerDeps` a second one whose
  managers are due whether they are subscribed or not.
* Arithmetic on `std::chrono::milliseconds` counts is 64-bit: a difference is reduced to
  the range from `-2^63` to `2^63 - 1` (`wrap64`).
* `run_thread_` is modelled by `run_thread_.joinable()`.
-/

namespace pl

/-- Status codes used by the sources (`pl::error::NotFound`, `AlreadyExists`, `Unknown`),
with the codes the specification names for subscription and connector failures. -/
inductive Code where
  | OK
  | UNKNOWN
  | INVALID_ARGUMENT
  | NOT_FOUND
  | ALREADY_EXISTS
  | INTERNAL
  | UNAVAILABLE
  deriving DecidableEq, Repr

/-- A `pl::Status`: a code and a message. -/
structure Status where
  code : Code
  msg : String
  deriving DecidableEq, Repr

/-- The value of `Status::OK()`. -/
def Status.OK : Status := ⟨Code.OK, ""⟩

/-- The member `Status::ok()`. -/
def Status.ok (s : Status) : Bool := s.code == Code.OK

/-- The value of `error::AlreadyExists(msg)`. -/
def error.AlreadyExists (msg : String) : Status := ⟨Code.ALREADY_EXISTS, msg⟩

/-- The value of `error::NotFound(msg)`. -/
def error.NotFound (msg : String) : Status := ⟨Code.NOT_FOUND, msg⟩

/-- How a call ends: it returns a value to its caller, or a fatal check
(`PL_CHECK_OK`, `LOG_IF(FATAL, ...)`) ends the process before it returns. -/
inductive Outcome (α : Type) where
  | returned (a : α)
  | fatal
  deriving DecidableEq, Repr

/-- A finished (or aborted) call: how it ended, the object state at that point, and the
calls made on collaborators, oldest first. -/
structure Run (σ α ε : Type) where
  exit : Outcome α
  state : σ
  calls : List ε

namespace stirling

/-- A `DataTable` object as `StirlingImpl` sees it: the schema it was constructed from,
and the identity of the allocation (`std::make_unique<DataTable>` yields a new object on
every call). -/
structure DataTable (Schema : Type) where
  obj : Nat
  schema : Schema
  deriving DecidableEq, Repr

/-- The collaborators of `StirlingImpl` whose code is outside `stirling.cc`, taken as
parameters. `Mgr` is the state of one `InfoClassManager` (with what it reads of
the clock, of its connector and of its attached table), `Subscribe` a
`stirlingpb::Subscribe` message, `Callback` a `PushDataCallback`, `Source` the state of a
`SourceConnector`. The functions are the member functions `stirling.cc` calls; a member
that returns `Status` and changes the object returns both. -/
structure Deps where
  Mgr : Type
  Schema : Type
  Subscribe : Type
  Callback : Type
  Source : Type
  /-- The getter `InfoClassManager::subscribed()`. -/
  subscribed : Mgr → Bool
  /-- The getter `InfoClassManager::Schema()`. -/
  Schema_of : Mgr → Schema
  /-- The query `InfoClassManager::SamplingRequired()`. -/
  SamplingRequired : Mgr → Bool
  /-- The query `InfoClassManager::PushRequired()`. -/
  PushRequired : Mgr → Bool
  /-- The call `InfoClassManager::SampleData()`. -/
  SampleData : Mgr → Status × Mgr
  /-- The call `InfoClassManager::PushData(agent_callback)`. -/
  PushData : Callback → Mgr → Status × Mgr
  /-- The query `InfoClassManager::NextSamplingTime()`. -/
  NextSamplingTime : Mgr → Int
  /-- The query `InfoClassManager::NextPushTime()`. -/
  NextPushTime : Mgr → Int
  /-- The setter `InfoClassManager::SetDataTable(table)`. -/
  SetDataTable : DataTable Schema → Mgr → Mgr
  /-- The call `PubSubManager::UpdateSchemaFromSubscribe(subscribe_proto, mgrs)`. -/
  UpdateSchemaFromSubscribe : Subscribe → List Mgr → Status × List Mgr
  /-- The constructor `InfoClassManager(name)`. -/
  InfoClassManager : String → Mgr
  /-- The setter `InfoClassManager::SetSourceConnector(source)`. -/
  SetSourceConnector : Source → Mgr → Mgr
  /-- The call `InfoClassManager::PopulateSchemaFromSource()`. -/
  PopulateSchemaFromSource : Mgr → Status × Mgr
  /-- The setter `InfoClassManager::SetSamplingPeriod(period)`. -/
  SetSamplingPeriod : Int → Mgr → Mgr
  /-- The setter `InfoClassManager::SetPushPeriod(period)`. -/
  SetPushPeriod : Int → Mgr → Mgr
  /-- The call `SourceConnector::Init()`. -/
  Init : Source → Status × Source

/-- A `SourceRegistry::RegistryElement`: the factory of the connector and its default
periods. -/
structure RegistryElement (D : Deps) where
  create_source_fn : String → D.Source
  sampling_period : Int
  push_period : Int

/-- The calls `StirlingImpl` makes, as they appear in a run. A manager is named by its
position in `info_class_mgrs_` (registry order), a table by its allocation identity. -/
inductive Event (Callback : Type) where
  | SampleData (i : Nat)
  | PushData (i : Nat) (cb : Callback)
  | tables_clear
  | UpdateSchemaFromSubscribe
  | make_DataTable (i : Nat) (obj : Nat)
  | SetDataTable (i : Nat) (obj : Nat)
  | tables_push_back (obj : Nat)
  | thread_start
  | sleep_for (d : Int)
  | source_Init (name : String)
  | log_warning (name : String)
  deriving DecidableEq, Repr

/-- Whether the event is `SampleData()` on manager `i`. -/
def Event.isSampleOf {C : Type} (i : Nat) : Event C → Bool
  | Event.SampleData j => j == i
  | _ => false

/-- Whether the event is `PushData(..)` on manager `i`. -/
def Event.isPushOf {C : Type} (i : Nat) : Event C → Bool
  | Event.PushData j _ => j == i
  | _ => false

/-- Whether the event is a `SampleData` or `PushData` call on some manager. -/
def Event.isMgrCall {C : Type} : Event C → Bool
  | Event.SampleData _ => true
  | Event.PushData _ _ => true
  | _ => false

/-- The manager an event is a call on, and the phase of the tick body it belongs to
(0 for `SampleData`, 1 for `PushData`); `none` for other events. -/
def Event.slot {C : Type} : Event C → Option (Nat × Nat)
  | Event.SampleData i => some (i, 0)
  | Event.PushData i _ => some (i, 1)
  | _ => none

/-- The state of a `StirlingImpl` object. `heap_next` is the identity the next allocated
`DataTable` gets; `run_thread_joinable` is `run_thread_.joinable()`: false for the default
constructed member, true once a thread was assigned to it and until it is joined. -/
structure StirlingImpl (D : Deps) where
  run_enable_ : Bool
  run_thread_joinable : Bool
  sources_ : List D.Source
  tables_ : List (DataTable D.Schema)
  info_class_mgrs_ : List D.Mgr
  registry_ : Option (List (String × RegistryElement D))
  agent_callback_ : D.Callback
  heap_next : Nat

/-- The constant `kMinSleepDuration{1}`, in milliseconds. -/
def kMinSleepDuration : Int := 1

/-- The value of `std::chrono::milliseconds::max()` for a 64-bit representation. -/
def milliseconds_max : Int := 2 ^ 63 - 1

/-- What one execution of a loop body over one manager leaves: whether every
`PL_CHECK_OK` in it passed, the manager afterwards, and the calls made. -/
structure Step (D : Deps) where
  ok : Bool
  mgr : D.Mgr
  calls : List (Event D.Callback)

/-- What a loop over the manager list leaves: whether it ran to its end (no
`PL_CHECK_OK` failed), the managers afterwards, and the calls made. -/
structure Loop (D : Deps) where
  ok : Bool
  mgrs : List D.Mgr
  calls : List (Event D.Callback)

/-- The loop `for (const auto& mgr : info_class_mgrs_) { body }`, the managers visited
in list order starting at position `i`; a failed `PL_CHECK_OK` in the body ends the
process, so the remaining managers are not visited. -/
def forEachMgr {D : Deps} (body : Nat → D.Mgr → Step D) : Nat → List D.Mgr → Loop D
  | _, [] => ⟨true, [], []⟩
  | i, m :: rest =>
    let r := body i m
    if r.ok then
      let l := forEachMgr body (i + 1) rest
      ⟨l.ok, r.mgr :: l.mgrs, r.calls ++ l.calls⟩
    else
      ⟨false, r.mgr :: rest, r.calls⟩

/-- Body of the first loop of `SetSubscription`:
`if (mgr->subscribed()) { PL_CHECK_OK(mgr->PushData(agent_callback_)); }`. -/
def flushBody {D : Deps} (cb : D.Callback) (i : Nat) (m : D.Mgr) : Step D :=
  if D.subscribed m then
    let r := D.PushData cb m
    ⟨r.1.ok, r.2, [Event.PushData i cb]⟩
  else
    ⟨true, m, []⟩

/-- Phase 1 of the body of the loop of `RunCore`:
`if (mgr->SamplingRequired()) { PL_CHECK_OK(mgr->SampleData()); }`. -/
def samplePhase {D : Deps} (i : Nat) (m : D.Mgr) : Step D :=
  if D.SamplingRequired m then
    let r := D.SampleData m
    ⟨r.1.ok, r.2, [Event.SampleData i]⟩
  else
    ⟨true, m, []⟩

/-- Phase 2 of the body of the loop of `RunCore`:
`if (mgr->PushRequired()) { PL_CHECK_OK(mgr->PushData(agent_callback_)); }`. -/
def pushPhase {D : Deps} (cb : D.Callback) (i : Nat) (m : D.Mgr) : Step D :=
  if D.PushRequired m then
    let r := D.PushData cb m
    ⟨r.1.ok, r.2, [Event.PushData i cb]⟩
  else
    ⟨true, m, []⟩

/-- Body of the loop of `RunCore`: for a subscribed manager phase 1 and then phase 2;
nothing for a manager that is not subscribed. -/
def tickBody {D : Deps} (cb : D.Callback) (i : Nat) (m : D.Mgr) : Step D :=
  if D.subscribed m then
    let s1 := samplePhase i m
    if s1.ok then
      let s2 := pushPhase cb i s1.mgr
      ⟨s2.ok, s2.mgr, s1.calls ++ s2.calls⟩
    else
      s1
  else
    ⟨true, m, []⟩

/-- What the table generation loop of `SetSubscription` leaves. -/
structure Tables (D : Deps) where
  mgrs : List D.Mgr
  tables : List (DataTable D.Schema)
  calls : List (Event D.Callback)
  heap_next : Nat

/-- The last loop of `SetSubscription`: for every subscribed manager a new `DataTable`
is made from `mgr->Schema()`, attached with `SetDataTable` and appended to `tables_`. -/
def generateTables {D : Deps} : Nat → Nat → List D.Mgr → Tables D
  | _, next, [] => ⟨[], [], [], next⟩
  | i, next, m :: rest =>
    if D.subscribed m then
      let data_table : DataTable D.Schema := ⟨next, D.Schema_of m⟩
      let r := generateTables (i + 1) (next + 1) rest
      ⟨D.SetDataTable data_table m :: r.mgrs, data_table :: r.tables,
        Event.make_DataTable i next :: Event.SetDataTable i next ::
          Event.tables_push_back next :: r.calls, r.heap_next⟩
    else
      let r := generateTables (i + 1) next rest
      ⟨m :: r.mgrs, r.tables, r.calls, r.heap_next⟩

/-- The member `StirlingImpl::SetSubscription(subscribe_proto)`. The spin lock is held
for the whole body, so the body runs as one step. -/
def SetSubscription {D : Deps} (s : StirlingImpl D) (subscribe_proto : D.Subscribe) :
    Run (StirlingImpl D) Status (Event D.Callback) :=
  let l := forEachMgr (flushBody s.agent_callback_) 0 s.info_class_mgrs_
  if l.ok then
    let s1 := { s with info_class_mgrs_ := l.mgrs, tables_ := [] }
    let u := D.UpdateSchemaFromSubscribe subscribe_proto s1.info_class_mgrs_
    let s2 := { s1 with info_class_mgrs_ := u.2 }
    let calls2 := l.calls ++ [Event.tables_clear, Event.UpdateSchemaFromSubscribe]
    if u.1.ok then
      let g := generateTables 0 s2.heap_next s2.info_class_mgrs_
      ⟨Outcome.returned Status.OK,
        { s2 with info_class_mgrs_ := g.mgrs, tables_ := s2.tables_ ++ g.tables,
                  heap_next := g.heap_next },
        calls2 ++ g.calls⟩
    else
      ⟨Outcome.fatal, s2, calls2⟩
  else
    ⟨Outcome.fatal, { s with info_class_mgrs_ := l.mgrs }, l.calls⟩

/-- The member `StirlingImpl::RunAsThread()`: `run_enable_.exchange(true)` is one atomic
step; a thread running `RunCore` is created only when the flag was false. The new thread
is move-assigned to `run_thread_`; move assignment to a `std::thread` that is joinable
calls `std::terminate()`, which ends the process. -/
def RunAsThread {D : Deps} (s : StirlingImpl D) :
    Run (StirlingImpl D) Status (Event D.Callback) :=
  let prev_run_enable_ := s.run_enable_
  let s1 := { s with run_enable_ := true }
  if prev_run_enable_ then
    ⟨Outcome.returned (error.AlreadyExists "A Stirling thread is already running."), s1, []⟩
  else if s1.run_thread_joinable then
    ⟨Outcome.fatal, s1, [Event.thread_start]⟩
  else
    ⟨Outcome.returned Status.OK, { s1 with run_thread_joinable := true },
      [Event.thread_start]⟩

/-- The member `StirlingImpl::WaitForThreadJoin()`, as the object is when the call has
returned: `run_thread_` is joined if it was joinable, and is not joinable afterwards. -/
def WaitForThreadJoin {D : Deps} (s : StirlingImpl D) : StirlingImpl D :=
  { s with run_thread_joinable := false }

/-- The member `StirlingImpl::Stop()`. -/
def Stop {D : Deps} (s : StirlingImpl D) : StirlingImpl D :=
  { s with run_enable_ := false }

/-- The loop of `TimeUntilNextTick`: the running minimum of `wakeup_time` over the
managers, `NextPushTime()` first and then `NextSamplingTime()`. -/
def wakeupTime {D : Deps} : Int → List D.Mgr → Int
  | wakeup_time, [] => wakeup_time
  | wakeup_time, m :: rest =>
    wakeupTime (min (min wakeup_time (D.NextPushTime m)) (D.NextSamplingTime m)) rest

/-- The least value of `std::chrono::milliseconds` for a 64-bit representation. -/
def milliseconds_min : Int := -(2 ^ 63)

/-- The value a 64-bit signed count takes for the integer `x`: `x` itself when it lies
between `-2^63` and `2^63 - 1`, and otherwise the value in that range that differs from
`x` by a multiple of `2^64`. -/
def wrap64 (x : Int) : Int := (x + 2 ^ 63) % 2 ^ 64 - 2 ^ 63

/-- The conversion `std::chrono::duration_cast<std::chrono::milliseconds>` applied to a
count of nanoseconds: division by 1000000, truncated toward zero. -/
def millisecondsOfNanoseconds (ns : Int) : Int := Int.tdiv ns 1000000

/-- The member `StirlingImpl::TimeUntilNextTick()`. `clock_ns` is the reading
`std::chrono::high_resolution_clock::now().time_since_epoch()` it takes, a 64-bit count
of nanoseconds; `now` is its `duration_cast` to milliseconds, and the value returned is
the 64-bit difference `wakeup_time - now`. -/
def TimeUntilNextTick {D : Deps} (s : StirlingImpl D) (clock_ns : Int) : Int :=
  let now := millisecondsOfNanoseconds clock_ns
  wrap64 (wakeupTime milliseconds_max s.info_class_mgrs_ - now)

/-- The member `StirlingImpl::SleepForDuration(sleep_duration)`: the calls to
`std::this_thread::sleep_for` it makes. -/
def SleepForDuration {C : Type} (sleep_duration : Int) : List (Event C) :=
  if sleep_duration > kMinSleepDuration then [Event.sleep_for sleep_duration] else []

/-- One execution of the body of the `while` loop of `RunCore` up to the release of the
spin lock: the loop over the managers, then `TimeUntilNextTick()`, which reads
`clock_ns` from the clock. The value returned is `sleep_duration`. -/
def RunCoreTick {D : Deps} (s : StirlingImpl D) (clock_ns : Int) :
    Run (StirlingImpl D) Int (Event D.Callback) :=
  let l := forEachMgr (tickBody s.agent_callback_) 0 s.info_class_mgrs_
  let s1 := { s with info_class_mgrs_ := l.mgrs }
  if l.ok then
    ⟨Outcome.returned (TimeUntilNextTick s1 clock_ns), s1, l.calls⟩
  else
    ⟨Outcome.fatal, s1, l.calls⟩

/-- What `RunCore` sees of the rest of the process: `clock k` is the reading of the clock
(a count of nanoseconds) taken by `TimeUntilNextTick` in iteration `k`; `between k` is
what other threads (`Stop`, `SetSubscription`) do to the object between the release of
the lock in iteration `k` and the next test of `run_enable_`. -/
structure Env (D : Deps) where
  clock : Nat → Int
  between : Nat → StirlingImpl D → StirlingImpl D

/-- The member `StirlingImpl::RunCore()`, for at most `fuel` iterations of its loop,
starting at iteration `k`. The run returns `true` when the loop was left because
`run_enable_` was false, `false` when the iterations allowed were used up. -/
def RunCore {D : Deps} (env : Env D) : Nat → Nat → StirlingImpl D →
    Run (StirlingImpl D) Bool (Event D.Callback)
  | 0, _, s => ⟨Outcome.returned (!s.run_enable_), s, []⟩
  | fuel + 1, k, s =>
    if s.run_enable_ then
      let t := RunCoreTick s (env.clock k)
      match t.exit with
      | Outcome.fatal => ⟨Outcome.fatal, t.state, t.calls⟩
      | Outcome.returned sleep_duration =>
        let r := RunCore env fuel (k + 1) (env.between k t.state)
        ⟨r.exit, r.state, t.calls ++ SleepForDuration sleep_duration ++ r.calls⟩
    else
      ⟨Outcome.returned true, s, []⟩

/-- The member `StirlingImpl::AddSourceFromRegistry(name, registry_element)`. -/
def AddSourceFromRegistry {D : Deps} (s : StirlingImpl D) (name : String)
    (registry_element : RegistryElement D) :
    Run (StirlingImpl D) Status (Event D.Callback) :=
  -- Step 1: Create and init the source.
  let source := D.Init (registry_element.create_source_fn name)
  if source.1.ok then
    -- Step 2: Create the info class manager.
    let mgr := D.SetSourceConnector source.2 (D.InfoClassManager name)
    -- Step 3: Setup the manager.
    let p := D.PopulateSchemaFromSource mgr
    if p.1.ok then
      let mgr3 := D.SetPushPeriod registry_element.push_period
        (D.SetSamplingPeriod registry_element.sampling_period p.2)
      -- Step 4: Keep pointers to all the objects
      ⟨Outcome.returned Status.OK,
        { s with sources_ := s.sources_ ++ [source.2],
                 info_class_mgrs_ := s.info_class_mgrs_ ++ [mgr3] },
        [Event.source_Init name]⟩
    else
      ⟨Outcome.fatal, s, [Event.source_Init name]⟩
  else
    ⟨Outcome.returned source.1, s, [Event.source_Init name]⟩

/-- The loop of `CreateSourceConnectors` over `registry_->sources()`: a source whose
`AddSourceFromRegistry` returns an error is logged and skipped. -/
def addSources {D : Deps} : StirlingImpl D → List (String × RegistryElement D) →
    Run (StirlingImpl D) Unit (Event D.Callback)
  | s, [] => ⟨Outcome.returned (), s, []⟩
  | s, (name, registry_element) :: rest =>
    let a := AddSourceFromRegistry s name registry_element
    match a.exit with
    | Outcome.fatal => ⟨Outcome.fatal, a.state, a.calls⟩
    | Outcome.returned st =>
      let warn : List (Event D.Callback) := if st.ok then [] else [Event.log_warning name]
      let r := addSources a.state rest
      ⟨r.exit, r.state, a.calls ++ warn ++ r.calls⟩

/-- The member `StirlingImpl::CreateSourceConnectors()`. -/
def CreateSourceConnectors {D : Deps} (s : StirlingImpl D) :
    Run (StirlingImpl D) Status (Event D.Callback) :=
  match s.registry_ with
  | none => ⟨Outcome.returned (error.NotFound "Source registry doesn't exist"), s, []⟩
  | some sources =>
    let r := addSources s sources
    match r.exit with
    | Outcome.fatal => ⟨Outcome.fatal, r.state, r.calls⟩
    | Outcome.returned _ => ⟨Outcome.returned Status.OK, r.state, r.calls⟩

/-- The member `StirlingImpl::Init()`: `PL_RETURN_IF_ERROR(CreateSourceConnectors())`,
then `Status::OK()`. -/
def Init {D : Deps} (s : StirlingImpl D) : Run (StirlingImpl D) Status (Event D.Callback) :=
  let r := CreateSourceConnectors s
  match r.exit with
  | Outcome.fatal => r
  | Outcome.returned st =>
    if st.ok then ⟨Outcome.returned Status.OK, r.state, r.calls⟩ else r

/-- The constructor `StirlingImpl(registry)`: `run_enable_(false)`, the registry moved in,
every container empty. The callback is the one `RegisterCallback` stores. -/
def StirlingImpl.create {D : Deps} (registry : Option (List (String × RegistryElement D)))
    (agent_callback : D.Callback) : StirlingImpl D :=
  { run_enable_ := false, run_thread_joinable := false, sources_ := [], tables_ := [],
    info_class_mgrs_ := [], registry_ := registry, agent_callback_ := agent_callback,
    heap_next := 0 }

/-! ## An instance of the collaborators, written from the specification -/

/-- Modelled from the spec: one entry of a Subscribe message (section 3, Subscription, and
section 6), `(info_class_id, subscribed, overrides)`; the class is generated from a
protocol description outside the sources. -/
structure SubEntry where
  id : Nat
  subscribed : Bool
  sampling_period : Option Int
  push_period : Option Int
  deriving DecidableEq, Repr

/-- Modelled from the spec: a Connector (section 3), reduced to its name, its schema and
whether its `init` and `sample` succeed; the class `SourceConnector` is outside the
sources. -/
structure SpecSource where
  name : String
  schema : List String
  init_ok : Bool
  sample_ok : Bool
  initialized : Bool
  deriving DecidableEq, Repr

/-- Modelled from the spec: the state of an InfoClassManager (section 3, InfoClass, and
section 4.2), with the attached table reduced to the number of buffered rows, the number
of rows delivered to the callback so far, the time `now` the manager reads from the
clock, and whether the connector's `sample` succeeds; the class `InfoClassManager` is
outside the sources. -/
structure SpecMgr where
  id : Nat
  name : String
  schema : List String
  subscribed : Bool
  sampling_period : Int
  push_period : Int
  next_sample_at : Int
  next_push_at : Int
  table : Option (DataTable (List String))
  rows : Nat
  delivered : Nat
  now : Int
  sample_ok : Bool
  deriving DecidableEq, Repr

/-- Modelled from the spec: `sampling_required(now)` of section 4.2, true iff
`now ≥ next_sample_at` and `subscribed`. -/
def SpecMgr.SamplingRequired (m : SpecMgr) : Bool :=
  decide (m.next_sample_at ≤ m.now) && m.subscribed

/-- Modelled from the spec: `push_required(now)` of section 4.2, true iff
`now ≥ next_push_at` and `subscribed` and the table has buffered rows. -/
def SpecMgr.PushRequired (m : SpecMgr) : Bool :=
  decide (m.next_push_at ≤ m.now) && m.subscribed && decide (0 < m.rows)

/-- Modelled from the spec: `sample_data()` of section 4.2. On success one row is
buffered; in both cases `next_sample_at = now + sampling_period`; a failure of the
connector is reported with code `INTERNAL` (section 7). -/
def SpecMgr.SampleData (m : SpecMgr) : Status × SpecMgr :=
  if m.sample_ok then
    (Status.OK, { m with rows := m.rows + 1, next_sample_at := m.now + m.sampling_period })
  else
    (⟨Code.INTERNAL, "sample failed"⟩, { m with next_sample_at := m.now + m.sampling_period })

/-- Modelled from the spec: `push_data(callback)` of section 4.2: the buffered rows go to
the callback and `next_push_at = now + push_period`. -/
def SpecMgr.PushData (_cb : Nat) (m : SpecMgr) : Status × SpecMgr :=
  (Status.OK, { m with delivered := m.delivered + m.rows, rows := 0,
                       next_push_at := m.now + m.push_period })

/-- Modelled from the spec: the effect of one Subscribe entry on one manager in
`apply_subscribe` (section 4.5): a subscribed entry with the manager's id subscribes it and
applies the overrides that are present. -/
def SpecMgr.applyEntry (m : SpecMgr) (e : SubEntry) : SpecMgr :=
  if e.subscribed && e.id == m.id then
    { m with subscribed := true,
             sampling_period := e.sampling_period.getD m.sampling_period,
             push_period := e.push_period.getD m.push_period }
  else m

/-- Modelled from the spec: `apply_subscribe` of section 4.5. It fails with
`INVALID_ARGUMENT` when two entries name the same id, without changing the managers;
otherwise every manager is unsubscribed and then the entries are applied in order. -/
def specUpdateSchemaFromSubscribe (sub : List SubEntry) (mgrs : List SpecMgr) :
    Status × List SpecMgr :=
  if (sub.map SubEntry.id).Nodup then
    (Status.OK, mgrs.map fun m => sub.foldl SpecMgr.applyEntry { m with subscribed := false })
  else
    (⟨Code.INVALID_ARGUMENT, "duplicate info class id"⟩, mgrs)

/-- Modelled from the spec: the collaborators of `StirlingImpl` as sections 3, 4.2 and 4.5
describe them. A callback is named by a number; the identifier of a new manager is 0 until
`populate_schema_from_source` assigns a number that encodes its name, so that managers
with different names get different identifiers. -/
@[reducible]
def specDeps : Deps where
  Mgr := SpecMgr
  Schema := List String
  Subscribe := List SubEntry
  Callback := Nat
  Source := SpecSource
  subscribed := SpecMgr.subscribed
  Schema_of := SpecMgr.schema
  SamplingRequired := SpecMgr.SamplingRequired
  PushRequired := SpecMgr.PushRequired
  SampleData := SpecMgr.SampleData
  PushData := SpecMgr.PushData
  NextSamplingTime := SpecMgr.next_sample_at
  NextPushTime := SpecMgr.next_push_at
  SetDataTable := fun t m => { m with table := some t, rows := 0 }
  UpdateSchemaFromSubscribe := specUpdateSchemaFromSubscribe
  InfoClassManager := fun name =>
    { id := 0, name := name, schema := [], subscribed := false, sampling_period := 0,
      push_period := 0, next_sample_at := 0, next_push_at := 0, table := none, rows := 0,
      delivered := 0, now := 0, sample_ok := true }
  SetSourceConnector := fun src m => { m with schema := src.schema, sample_ok := src.sample_ok }
  PopulateSchemaFromSource := fun m =>
    (Status.OK, { m with id := m.name.toList.foldl (fun a c => a * 1114112 + c.toNat + 1) 1 })
  SetSamplingPeriod := fun d m => { m with sampling_period := d }
  SetPushPeriod := fun d m => { m with push_period := d }
  Init := fun src =>
    if src.init_ok then (Status.OK, { src with initialized := true })
    else (⟨Code.INTERNAL, "init failed"⟩, src)

/-- A manager of `specDeps` with the given identifier, subscription flag, clock reading
and connector behaviour: sampling period 10, push period 20, both due at time 0, one row
buffered. -/
def specMgr (id : Nat) (subscribed : Bool) (now : Int) (sample_ok : Bool) : SpecMgr :=
  { id := id, name := "m", schema := ["time_", "value"], subscribed := subscribed,
    sampling_period := 10, push_period := 20, next_sample_at := 0, next_push_at := 0,
    table := none, rows := 1, delivered := 0, now := now, sample_ok := sample_ok }

/-- A collector over `specDeps` holding the given managers and tables, callback 7. -/
def specStirling (mgrs : List SpecMgr) (tables : List (DataTable (List String))) :
    StirlingImpl specDeps :=
  { run_enable_ := false, run_thread_joinable := false, sources_ := [], tables_ := tables,
    info_class_mgrs_ := mgrs, registry_ := none, agent_callback_ := (7 : Nat),
    heap_next := 100 }

/-! ## Reference sequences used to state the properties -/

/-- The `PushData` calls the first loop of `SetSubscription` makes when no check fails:
one on every subscribed manager of the list, named by position (the first manager has
position `i`), in list order. -/
def flushCalls {D : Deps} (cb : D.Callback) (i : Nat) (mgrs : List D.Mgr) :
    List (Event D.Callback) :=
  ((mgrs.enumFrom i).filter fun p => D.subscribed p.2).map fun p => Event.PushData p.1 cb

/-- The managers after the first loop of `SetSubscription` when no check fails: every
subscribed manager as `PushData` left it. -/
def flushedMgrs {D : Deps} (cb : D.Callback) (mgrs : List D.Mgr) : List D.Mgr :=
  mgrs.map fun m => if D.subscribed m then (D.PushData cb m).2 else m

/-- The source `AddSourceFromRegistry` creates and initialises for a registry entry. -/
def initSource {D : Deps} (p : String × RegistryElement D) : Status × D.Source :=
  D.Init (p.2.create_source_fn p.1)

/-- The manager `AddSourceFromRegistry` builds for a registry entry whose connector was
initialised: constructed from the name, connected to the source, schema populated, then
given the sampling period and the push period of the registry element. -/
def builtMgr {D : Deps} (p : String × RegistryElement D) : D.Mgr :=
  D.SetPushPeriod p.2.push_period (D.SetSamplingPeriod p.2.sampling_period
    (D.PopulateSchemaFromSource (D.SetSourceConnector (initSource p).2
      (D.InfoClassManager p.1))).2)

/-- Whether `PopulateSchemaFromSource` succeeds on the manager built for a registry
entry. -/
def populateOk {D : Deps} (p : String × RegistryElement D) : Bool :=
  (D.PopulateSchemaFromSource (D.SetSourceConnector (initSource p).2
    (D.InfoClassManager p.1))).1.ok

/-- Registry order on the calls of a tick: `a.precedes b` when `a` is a call on a manager
placed before the manager of `b`, or both are calls on the same manager, `a` its
`SampleData` and `b` its `PushData`. -/
def Event.precedes {C : Type} (a b : Event C) : Bool :=
  match a.slot, b.slot with
  | some (i, p), some (j, q) => decide (i < j) || (i == j && decide (p < q))
  | _, _ => false

/-! ## Concrete inputs -/

/-- Three managers: the first and the third subscribed, the second not; every connector
samples successfully; the clock reads 0. -/
def threeMgrs : List SpecMgr :=
  [specMgr 1 true 0 true, specMgr 2 false 0 true, specMgr 3 true 0 true]

/-- Two subscribed managers, the first with a connector whose `sample` fails. -/
def failingMgrs : List SpecMgr :=
  [specMgr 1 true 0 false, specMgr 2 true 0 true]

/-- A table allocated by an earlier subscription. -/
def oldTable : DataTable (List String) := ⟨3, ["time_", "value"]⟩

/-- A Subscribe message that selects info class 1 only. -/
def subscribeOne : List SubEntry := [⟨1, true, none, none⟩]

/-- A Subscribe message that names info class 1 twice. -/
def subscribeTwice : List SubEntry := [⟨1, true, none, none⟩, ⟨1, true, some 5, none⟩]

/-- An environment of `RunCore` in which the clock reads `10 * k` nanoseconds in
iteration `k` and no other thread touches the collector. -/
def quietEnv (D : Deps) : Env D := { clock := fun k => 10 * (k : Int), between := fun _ s => s }

/-- A connector factory of `specDeps`: the connector named "bad" fails to initialise. -/
def specFactory (name : String) : SpecSource :=
  { name := name, schema := ["time_"], init_ok := name != "bad", sample_ok := true,
    initialized := false }

/-- A registry with three sources, the second of which fails to initialise. -/
def specRegistry : List (String × RegistryElement specDeps) :=
  [("a", ⟨specFactory, 10, 20⟩), ("bad", ⟨specFactory, 1, 2⟩), ("b", ⟨specFactory, 5, 50⟩)]

/-- A collector over `specDeps` as `specStirling`, with `run_enable_` set: its scheduler
loop is running. -/
def specStirlingRunning (mgrs : List SpecMgr) : StirlingImpl specDeps :=
  { specStirling mgrs [] with run_enable_ := true }

/-! ## The Publish and Subscribe messages -/

/-- Modelled from the spec: one column of a schema, `(column name, semantic type)`
(section 3, Connector, and section 6); the message type is generated from a protocol
description outside `stirling.cc`. -/
structure Element where
  name : String
  type : String
  deriving DecidableEq, Repr

/-- Modelled from the spec: the message `stirlingpb::InfoClass`, the entry type of both
the Publish and the Subscribe message (section 6): `id`, `name`, `schema`, the
`subscribed` flag and the two periods in milliseconds; the message type is generated from
a protocol description outside `stirling.cc`. -/
structure InfoClass where
  id : Nat
  name : String
  schema : List Element
  subscribed : Bool
  sampling_period_millis : Nat
  push_period_millis : Nat
  deriving DecidableEq, Repr

/-- Modelled from the spec: the message `stirlingpb::Subscribe`, an ordered sequence of
subscribed info classes (section 6). -/
structure Subscribe where
  subscribed_info_classes : List InfoClass
  deriving DecidableEq, Repr

/-- The managers as `UpdateSchemaFromSubscribe` leaves them inside `SetSubscription`, when
the flush of the old tables ran to its end. -/
def updatedMgrs {D : Deps} (s : StirlingImpl D) (subscribe_proto : D.Subscribe) :
    List D.Mgr :=
  (D.UpdateSchemaFromSubscribe subscribe_proto
    (flushedMgrs s.agent_callback_ s.info_class_mgrs_)).2

/-- The allocation identities are in order: every table of `tables_` was allocated before
the next allocation. Holds after the constructor and is kept by `SetSubscription`. -/
def StirlingImpl.heapOk {D : Deps} (s : StirlingImpl D) : Prop :=
  ∀ t ∈ s.tables_, t.obj < s.heap_next

/-- An instance of the collaborators whose `SamplingRequired()` and `PushRequired()` do
not look at the subscription flag: they hold as soon as the time is due (and, for the
push, rows are buffered). Everything else is as in `specDeps`. -/
@[reducible]
def eagerDeps : Deps where
  Mgr := SpecMgr
  Schema := List String
  Subscribe := List SubEntry
  Callback := Nat
  Source := SpecSource
  subscribed := SpecMgr.subscribed
  Schema_of := SpecMgr.schema
  SamplingRequired := fun m => decide (m.next_sample_at ≤ m.now)
  PushRequired := fun m => decide (m.next_push_at ≤ m.now) && decide (0 < m.rows)
  SampleData := SpecMgr.SampleData
  PushData := SpecMgr.PushData
  NextSamplingTime := SpecMgr.next_sample_at
  NextPushTime := SpecMgr.next_push_at
  SetDataTable := specDeps.SetDataTable
  UpdateSchemaFromSubscribe := specUpdateSchemaFromSubscribe
  InfoClassManager := specDeps.InfoClassManager
  SetSourceConnector := specDeps.SetSourceConnector
  PopulateSchemaFromSource := specDeps.PopulateSchemaFromSource
  SetSamplingPeriod := specDeps.SetSamplingPeriod
  SetPushPeriod := specDeps.SetPushPeriod
  Init := specDeps.Init

/-- A collector over `eagerDeps` holding the given managers, no table, callback 7. -/
def eagerStirling (mgrs : List SpecMgr) : StirlingImpl eagerDeps :=
  { run_enable_ := false, run_thread_joinable := false, sources_ := [], tables_ := [],
    info_class_mgrs_ := mgrs, registry_ := none, agent_callback_ := (7 : Nat),
    heap_next := 100 }

/-- An environment of `RunCore` in which the clock reads 0 nanoseconds and another thread
calls `Stop()` during every iteration. -/
def stoppingEnv (D : Deps) : Env D := { clock := fun _ => 0, between := fun _ s => Stop s }

/-- Two subscribed managers due for sampling and for pushing, the first with no row
buffered: its `PushRequired()` is false before the sample of the tick and true after it. -/
def unfilledMgrs : List SpecMgr :=
  [{ specMgr 1 true 0 true with rows := 0 }, specMgr 2 true 0 true]

end stirling

namespace vizier

namespace agent

/-- The agent information `info_` (type `Info`, declared in `manager.h`), reduced to the
field the hooks read and write. -/
structure Info where
  asid : Nat
  deriving DecidableEq, Repr

/-- The heartbeat handler as `Manager` uses it: `DisableHeartbeats()` and
`EnableHeartbeats()` switch it. -/
structure HeartbeatMessageHandler where
  heartbeats_enabled : Bool
  deriving DecidableEq, Repr

/-- The state of a `Manager`. `message_handlers_` maps a message case to the handler
registered for it; `heartbeat_handler_` is `none` for a null pointer; `impl` is the state
of the derived class, on which the hooks `StopImpl`, `InitImpl` act. -/
structure Manager (MsgCase Handler Impl : Type) where
  stop_called_ : Bool
  running_ : Bool
  message_handlers_ : MsgCase → Option Handler
  info_ : Info
  heartbeat_handler_ : Option HeartbeatMessageHandler
  impl : Impl

/-- The calls `Manager::Stop` makes on its collaborators. -/
inductive StopEvent where
  | dispatcher_Stop
  | StopImpl (timeout : Int)
  | sleep_for (d : Int)
  deriving DecidableEq, Repr

/-- What `Manager::Stop` sees of the rest of the process: the hook `StopImpl` of the
derived class, the reading of `time_system_->MonotonicTime()` when the deadline is
computed, and `running k`, the value of `running_` (written by the thread inside `Run`)
at the test of the wait loop that follows the `k`-th sleep. -/
structure StopEnv (Impl : Type) where
  StopImpl : Int → Impl → Status × Impl
  MonotonicTime : Int
  running : Nat → Bool

/-- The wait loop of `Manager::Stop`:
`while (running_ && MonotonicTime() < expiration_time) sleep_for(100ms)`. The clock moves
by the 100 ms of each sleep, so the test after `k` sleeps reads `MonotonicTime + 100 * k`.
The result is the number of sleeps and the last value of `running_` read. -/
def waitForRun {Impl : Type} (env : StopEnv Impl) (expiration_time : Int) :
    Nat → Nat → Bool → Nat × Bool
  | 0, k, running => (k, running)
  | fuel + 1, k, running =>
    if running && decide (env.MonotonicTime + 100 * (k : Int) < expiration_time) then
      waitForRun env expiration_time fuel (k + 1) (env.running (k + 1))
    else
      (k, running)

/-- The member `Manager::Stop(timeout)`. The wait loop gets `timeout / 100 + 2`
iterations, more than it can use with a clock that moves 100 ms per sleep. -/
def Manager.Stop {MsgCase Handler Impl : Type} (env : StopEnv Impl)
    (m : Manager MsgCase Handler Impl) (timeout : Int) :
    Run (Manager MsgCase Handler Impl) Status StopEvent :=
  -- Already stopping, protect against multiple calls.
  if m.stop_called_ then
    ⟨Outcome.returned Status.OK, m, []⟩
  else
    let s := env.StopImpl timeout m.impl
    let expiration_time := env.MonotonicTime + timeout
    let w := waitForRun env expiration_time (timeout.toNat / 100 + 2) 0 m.running_
    ⟨Outcome.returned s.1,
      { m with stop_called_ := true, impl := s.2, running_ := w.2 },
      StopEvent.dispatcher_Stop :: StopEvent.StopImpl timeout ::
        List.replicate w.1 (StopEvent.sleep_for 100)⟩

/-- The member `Manager::RegisterMessageHandler(c, handler, override)`. -/
def Manager.RegisterMessageHandler {MsgCase Handler Impl : Type} [DecidableEq MsgCase]
    (m : Manager MsgCase Handler Impl) (c : MsgCase) (handler : Handler)
    (override : Bool) : Status × Manager MsgCase Handler Impl :=
  if (m.message_handlers_ c).isSome && !override then
    (error.AlreadyExists "message handler already exists for case: $0", m)
  else
    (Status.OK,
      { m with message_handlers_ := fun k => if k = c then some handler else m.message_handlers_ k })

/-- A manager that has not been stopped, with no handler registered, over message cases
and handlers named by numbers and a derived class whose state counts its `StopImpl`
calls. -/
def freshManager : Manager Nat Nat Nat :=
  { stop_called_ := false, running_ := true, message_handlers_ := fun _ => none,
    info_ := ⟨0⟩, heartbeat_handler_ := none, impl := 0 }

/-- A manager with handler 5 registered for message case 1 and nothing else. -/
def registeredManager : Manager Nat Nat Nat :=
  { stop_called_ := false, running_ := true,
    message_handlers_ := fun k => if k = 1 then some 5 else none,
    info_ := ⟨0⟩, heartbeat_handler_ := none, impl := 0 }

/-- A process in which `StopImpl` fails with `INTERNAL`, the clock reads 0 at entry and
the main thread leaves `Run` during the second sleep. -/
def failingStopEnv : StopEnv Nat :=
  { StopImpl := fun _ n => (⟨Code.INTERNAL, "stop failed"⟩, n + 1),
    MonotonicTime := 0,
    running := fun k => decide (k < 2) }

/-- Modelled from the spec: `DisableHeartbeats()` of the heartbeat handler, which pauses
the heartbeats (section 4.9, "disable heartbeats"); the class `HeartbeatMessageHandler` is
declared in `heartbeat.h`, outside `manager.cc`. -/
def HeartbeatMessageHandler.DisableHeartbeats (h : HeartbeatMessageHandler) :
    HeartbeatMessageHandler :=
  { h with heartbeats_enabled := false }

/-- Modelled from the spec: `EnableHeartbeats()` of the heartbeat handler, which resumes
the heartbeats (section 4.9, "re-enable heartbeats"); the class `HeartbeatMessageHandler`
is declared in `heartbeat.h`, outside `manager.cc`. -/
def HeartbeatMessageHandler.EnableHeartbeats (h : HeartbeatMessageHandler) :
    HeartbeatMessageHandler :=
  { h with heartbeats_enabled := true }

/-- The calls the registration hooks of `Manager` make on their collaborators. -/
inductive HookEvent where
  | make_mds_manager (asid : Nat)
  | make_relation_info_manager
  | PostRegisterHookImpl
  | RegisterAgentMetadataCallback
  | metadata_update_timer_EnableTimer (seconds : Nat)
  | chan_cache_garbage_collect_timer_EnableTimer
  | make_heartbeat_handler
  | make_heartbeat_nack_handler
  | make_config_manager
  | DisableHeartbeats
  | EnableHeartbeats
  deriving DecidableEq, Repr

/-- What `PostRegisterHook` and `RegisterBackgroundHelpers` take from outside
`manager.cc`: the three message cases they register handlers for, the hook
`PostRegisterHookImpl` of the derived class, the heartbeat handler as its constructor
leaves it, and the three handler objects as the registry of message handlers holds
them. -/
structure RegisterEnv (MsgCase Handler Impl : Type) where
  kHeartbeatAck : MsgCase
  kHeartbeatNack : MsgCase
  kConfigUpdateMessage : MsgCase
  PostRegisterHookImpl : Impl → Status × Impl
  new_heartbeat_handler : HeartbeatMessageHandler
  heartbeat_handler : Handler
  heartbeat_nack_handler : Handler
  config_manager : Handler

/-- The member `Manager::RegisterBackgroundHelpers()`: the two timers are created and
enabled, the heartbeat handler is made and stored, and the handlers for heartbeat acks,
heartbeat nacks and config updates are registered (without `override`), the first two
under `PL_CHECK_OK`, the third under `PL_RETURN_IF_ERROR`. -/
def Manager.RegisterBackgroundHelpers {MsgCase Handler Impl : Type} [DecidableEq MsgCase]
    (env : RegisterEnv MsgCase Handler Impl) (m : Manager MsgCase Handler Impl) :
    Run (Manager MsgCase Handler Impl) Status HookEvent :=
  let calls1 := [HookEvent.metadata_update_timer_EnableTimer 5,
    HookEvent.chan_cache_garbage_collect_timer_EnableTimer,
    HookEvent.make_heartbeat_handler, HookEvent.make_heartbeat_nack_handler]
  let m1 := { m with heartbeat_handler_ := some env.new_heartbeat_handler }
  let r1 := m1.RegisterMessageHandler env.kHeartbeatAck env.heartbeat_handler false
  if r1.1.ok then
    let r2 := r1.2.RegisterMessageHandler env.kHeartbeatNack env.heartbeat_nack_handler false
    if r2.1.ok then
      let r3 := r2.2.RegisterMessageHandler env.kConfigUpdateMessage env.config_manager false
      if r3.1.ok then
        ⟨Outcome.returned Status.OK, r3.2, calls1 ++ [HookEvent.make_config_manager]⟩
      else
        ⟨Outcome.returned r3.1, r3.2, calls1 ++ [HookEvent.make_config_manager]⟩
    else
      ⟨Outcome.fatal, r2.2, calls1⟩
  else
    ⟨Outcome.fatal, r1.2, calls1⟩

/-- The member `Manager::PostRegisterHook(asid)`; `asid` is a `uint32_t`. The first
statement is `LOG_IF(FATAL, info_.asid != 0)`. -/
def Manager.PostRegisterHook {MsgCase Handler Impl : Type} [DecidableEq MsgCase]
    (env : RegisterEnv MsgCase Handler Impl) (m : Manager MsgCase Handler Impl)
    (asid : Nat) : Run (Manager MsgCase Handler Impl) Status HookEvent :=
  if m.info_.asid != 0 then
    ⟨Outcome.fatal, m, []⟩
  else
    let m1 := { m with info_ := { m.info_ with asid := asid } }
    let calls1 := [HookEvent.make_mds_manager m1.info_.asid,
      HookEvent.make_relation_info_manager, HookEvent.PostRegisterHookImpl]
    -- Call the derived class post-register hook.
    let p := env.PostRegisterHookImpl m1.impl
    let m2 := { m1 with impl := p.2 }
    if p.1.ok then
      let r := m2.RegisterBackgroundHelpers env
      ⟨r.exit, r.state, calls1 ++ HookEvent.RegisterAgentMetadataCallback :: r.calls⟩
    else
      ⟨Outcome.fatal, m2, calls1⟩

/-- The member `Manager::PreReregisterHook()`. The first statement is
`LOG_IF(FATAL, heartbeat_handler_ == nullptr)`. -/
def Manager.PreReregisterHook {MsgCase Handler Impl : Type}
    (m : Manager MsgCase Handler Impl) : Run (Manager MsgCase Handler Impl) Status HookEvent :=
  match m.heartbeat_handler_ with
  | none => ⟨Outcome.fatal, m, []⟩
  | some h =>
    ⟨Outcome.returned Status.OK, { m with heartbeat_handler_ := some h.DisableHeartbeats },
      [HookEvent.DisableHeartbeats]⟩

/-- The member `Manager::PostReregisterHook(asid)`; `asid` is a `uint32_t`. The first two
statements are `LOG_IF(FATAL, heartbeat_handler_ == nullptr)` and
`LOG_IF(FATAL, asid != info_.asid)`. -/
def Manager.PostReregisterHook {MsgCase Handler Impl : Type}
    (m : Manager MsgCase Handler Impl) (asid : Nat) :
    Run (Manager MsgCase Handler Impl) Status HookEvent :=
  match m.heartbeat_handler_ with
  | none => ⟨Outcome.fatal, m, []⟩
  | some h =>
    if asid != m.info_.asid then
      ⟨Outcome.fatal, m, []⟩
    else
      ⟨Outcome.returned Status.OK, { m with heartbeat_handler_ := some h.EnableHeartbeats },
        [HookEvent.EnableHeartbeats]⟩

/-- A call of one of the three registration hooks. -/
inductive Hook where
  | PostRegisterHook (asid : Nat)
  | PreReregisterHook
  | PostReregisterHook (asid : Nat)
  deriving DecidableEq, Repr

/-- The run of one hook call. -/
def Manager.callHook {MsgCase Handler Impl : Type} [DecidableEq MsgCase]
    (env : RegisterEnv MsgCase Handler Impl) (m : Manager MsgCase Handler Impl) :
    Hook → Run (Manager MsgCase Handler Impl) Status HookEvent
  | Hook.PostRegisterHook asid => m.PostRegisterHook env asid
  | Hook.PreReregisterHook => m.PreReregisterHook
  | Hook.PostReregisterHook asid => m.PostReregisterHook asid

/-- The manager after a sequence of hook calls, made in order; a call that ends the
process is the last one made. -/
def Manager.callHooks {MsgCase Handler Impl : Type} [DecidableEq MsgCase]
    (env : RegisterEnv MsgCase Handler Impl) :
    Manager MsgCase Handler Impl → List Hook → Manager MsgCase Handler Impl
  | m, [] => m
  | m, hk :: rest =>
    match (m.callHook env hk).exit with
    | Outcome.fatal => (m.callHook env hk).state
    | Outcome.returned _ => Manager.callHooks env (m.callHook env hk).state rest

/-- A process in which `PostRegisterHookImpl` succeeds; the message cases for heartbeat
acks, heartbeat nacks and config updates are 10, 11 and 12, the handlers 20, 21 and 22,
and a new heartbeat handler has its heartbeats enabled. -/
def quietRegisterEnv : RegisterEnv Nat Nat Nat :=
  { kHeartbeatAck := 10, kHeartbeatNack := 11, kConfigUpdateMessage := 12,
    PostRegisterHookImpl := fun n => (Status.OK, n),
    new_heartbeat_handler := ⟨true⟩,
    heartbeat_handler := 20, heartbeat_nack_handler := 21, config_manager := 22 }

/-- The manager `freshManager` after registration with asid 42. -/
def registeredAgent : Manager Nat Nat Nat :=
  (freshManager.PostRegisterHook quietRegisterEnv 42).state

end agent

end vizier

end pl

/-! ## Properties of `Manager` -/

namespace pl.vizier.agent

variable {MsgCase Handler Impl : Type}

/-- The wait loop of `Manager::Stop` needs no more iterations than the clock allows: once
the deadline is within `100 * fuel` ms of the time read at test `k`, one more iteration
changes nothing. -/
theorem waitForRun_succ (env : StopEnv Impl) (expiration_time : Int) (fuel k : Nat)
    (running : Bool)
    (h : expiration_time ≤ env.MonotonicTime + 100 * ((k + fuel : Nat) : Int)) :
    waitForRun env expiration_time (fuel + 1) k running =
      waitForRun env expiration_time fuel k running := by
  induction fuel generalizing k running with
  | zero =>
    have h2 : ¬ (env.MonotonicTime + 100 * (k : Int) < expiration_time) := by
      simp only [Nat.add_zero] at h
      omega
    simp [waitForRun, h2]
  | succ n ih =>
    have h3 : expiration_time ≤ env.MonotonicTime + 100 * (((k + 1) + n : Nat) : Int) := by
      have : k + 1 + n = k + (n + 1) := by omega
      rw [this]
      exact h
    have := ih (k + 1) (env.running (k + 1)) h3
    rw [waitForRun, this]
    conv_rhs => rw [waitForRun]

/-- The iterations `Manager::Stop` gives its wait loop are enough: any larger number
yields the same number of sleeps. -/
theorem waitForRun_enough (env : StopEnv Impl) (timeout : Int) (n : Nat) (running : Bool) :
    waitForRun env (env.MonotonicTime + timeout) (timeout.toNat / 100 + 2 + n) 0 running =
      waitForRun env (env.MonotonicTime + timeout) (timeout.toNat / 100 + 2) 0 running := by
  induction n with
  | zero => rfl
  | succ n ih =>
    rw [← ih]
    have hfuel : timeout.toNat / 100 + 2 + (n + 1) = (timeout.toNat / 100 + 2 + n) + 1 := by
      omega
    rw [hfuel]
    apply waitForRun_succ
    have h1 : timeout ≤ (timeout.toNat : Int) := Int.self_le_toNat timeout
    have h2 : timeout.toNat < 100 * (timeout.toNat / 100 + 1) := by omega
    push_cast
    omega

/-- C9: `RegisterMessageHandler(c, h, override)` returns an `AlreadyExists` error exactly
when a handler is registered for `c` and `override` is false, and then the manager is
unchanged; in every other case it returns OK, the registry maps `c` to `h`, and the
handler of every other message case (and every other field) is as before. -/
theorem RegisterMessageHandler_contract [DecidableEq MsgCase]
    (m : Manager MsgCase Handler Impl) (c : MsgCase) (h : Handler) (override : Bool) :
    (((m.RegisterMessageHandler c h override).1.code = Code.ALREADY_EXISTS ∧
        (m.RegisterMessageHandler c h override).2 = m) ↔
      ((m.message_handlers_ c).isSome = true ∧ override = false)) ∧
    ((m.RegisterMessageHandler c h override).1.code = Code.ALREADY_EXISTS ↔
      ((m.message_handlers_ c).isSome = true ∧ override = false)) ∧
    (¬ ((m.message_handlers_ c).isSome = true ∧ override = false) →
      (m.RegisterMessageHandler c h override).1 = Status.OK ∧
      (m.RegisterMessageHandler c h override).2.message_handlers_ c = some h ∧
      (∀ k, k ≠ c → (m.RegisterMessageHandler c h override).2.message_handlers_ k =
        m.message_handlers_ k) ∧
      (m.RegisterMessageHandler c h override).2.stop_called_ = m.stop_called_ ∧
      (m.RegisterMessageHandler c h override).2.running_ = m.running_ ∧
      (m.RegisterMessageHandler c h override).2.info_ = m.info_ ∧
      (m.RegisterMessageHandler c h override).2.heartbeat_handler_ = m.heartbeat_handler_ ∧
      (m.RegisterMessageHandler c h override).2.impl = m.impl) := by
  by_cases hc : (m.message_handlers_ c).isSome = true <;> cases override <;>
    simp [Manager.RegisterMessageHandler, hc, error.AlreadyExists, Status.OK] <;>
    intro k hk <;> simp [hk]

/-- Evaluation of C9: on a manager with no handler, registering handler 5 for case 1
succeeds; on a manager that has handler 5 for case 1, registering handler 6 for case 1
without `override` is refused and handler 5 stays, and with `override` it replaces
handler 5 while case 2 keeps having no handler. -/
theorem RegisterMessageHandler_contract_witness :
    (freshManager.RegisterMessageHandler 1 5 false).1 = Status.OK ∧
    (freshManager.RegisterMessageHandler 1 5 false).2.message_handlers_ 1 = some 5 ∧
    (registeredManager.RegisterMessageHandler 1 6 false).1.code = Code.ALREADY_EXISTS ∧
    (registeredManager.RegisterMessageHandler 1 6 false).2 = registeredManager ∧
    (registeredManager.RegisterMessageHandler 1 6 true).1 = Status.OK ∧
    (registeredManager.RegisterMessageHandler 1 6 true).2.message_handlers_ 1 = some 6 ∧
    (registeredManager.RegisterMessageHandler 1 6 true).2.message_handlers_ 2 = none :=
  ⟨((RegisterMessageHandler_contract freshManager 1 5 false).2.2 (by decide)).1,
    ((RegisterMessageHandler_contract freshManager 1 5 false).2.2 (by decide)).2.1,
    ((RegisterMessageHandler_contract registeredManager 1 6 false).1.2 (by decide)).1,
    ((RegisterMessageHandler_contract registeredManager 1 6 false).1.2 (by decide)).2,
    ((RegisterMessageHandler_contract registeredManager 1 6 true).2.2 (by decide)).1,
    ((RegisterMessageHandler_contract registeredManager 1 6 true).2.2 (by decide)).2.1,
    by decide⟩

/-- C10, counterexample: with a `StopImpl` that fails, the first of two calls of
`Stop(timeout)` on a manager that was not stopped returns that failure, not OK. -/
theorem Stop_first_call_not_OK :
    (Manager.Stop failingStopEnv freshManager 250).exit
      = Outcome.returned ⟨Code.INTERNAL, "stop failed"⟩ ∧
    (Manager.Stop failingStopEnv freshManager 250).exit ≠ Outcome.returned Status.OK ∧
    (Manager.Stop failingStopEnv freshManager 250).calls
      = [StopEvent.dispatcher_Stop, StopEvent.StopImpl 250, StopEvent.sleep_for 100,
         StopEvent.sleep_for 100] ∧
    (Manager.Stop failingStopEnv (Manager.Stop failingStopEnv freshManager 250).state 250).exit
      = Outcome.returned Status.OK := by
  decide

/-- C10, amended: of two calls of `Stop` in a row, the first returns OK when `Stop` had
been called before and the status of `StopImpl(timeout)` otherwise, stopping the
dispatcher and calling `StopImpl` at most once; the second returns OK, makes no call (no
dispatcher stop, no `StopImpl`, no sleep) and leaves the state as the first call left
it. -/
theorem Stop_twice (env env2 : StopEnv Impl) (m : Manager MsgCase Handler Impl)
    (timeout timeout2 : Int) :
    (Manager.Stop env m timeout).exit =
      Outcome.returned (if m.stop_called_ then Status.OK else (env.StopImpl timeout m.impl).1) ∧
    (Manager.Stop env m timeout).state.stop_called_ = true ∧
    (Manager.Stop env m timeout).calls.count StopEvent.dispatcher_Stop
      = (if m.stop_called_ then 0 else 1) ∧
    (Manager.Stop env m timeout).calls.count (StopEvent.StopImpl timeout)
      = (if m.stop_called_ then 0 else 1) ∧
    (Manager.Stop env2 (Manager.Stop env m timeout).state timeout2).exit
      = Outcome.returned Status.OK ∧
    (Manager.Stop env2 (Manager.Stop env m timeout).state timeout2).calls = [] ∧
    (Manager.Stop env2 (Manager.Stop env m timeout).state timeout2).state
      = (Manager.Stop env m timeout).state := by
  cases hs : m.stop_called_ <;> simp [Manager.Stop, hs, List.count_replicate]

/-- `RegisterMessageHandler` leaves the agent information as it was. -/
theorem RegisterMessageHandler_info [DecidableEq MsgCase]
    (m : Manager MsgCase Handler Impl) (c : MsgCase) (h : Handler) (override : Bool) :
    (m.RegisterMessageHandler c h override).2.info_ = m.info_ := by
  unfold Manager.RegisterMessageHandler
  split <;> rfl

/-- `RegisterBackgroundHelpers` leaves the agent information as it was, however it
ends. -/
theorem RegisterBackgroundHelpers_info [DecidableEq MsgCase]
    (env : RegisterEnv MsgCase Handler Impl) (m : Manager MsgCase Handler Impl) :
    (m.RegisterBackgroundHelpers env).state.info_ = m.info_ := by
  unfold Manager.RegisterBackgroundHelpers
  simp only
  split
  · split
    · split <;> simp [RegisterMessageHandler_info]
    · simp [RegisterMessageHandler_info]
  · simp [RegisterMessageHandler_info]

/-- C11: on an agent whose heartbeat handler is set up, `PreReregisterHook` disables the
heartbeats and returns OK, leaving the stored asid; a following `PostReregisterHook(a2)`
returns OK exactly when `a2` is the stored asid, and then it re-enables the heartbeats
and leaves the stored asid; with a different asid it is fatal, makes no call, and leaves
the heartbeats disabled. -/
theorem Reregister_hooks (m : Manager MsgCase Handler Impl) (h : HeartbeatMessageHandler)
    (a2 : Nat) (hh : m.heartbeat_handler_ = some h) :
    m.PreReregisterHook.exit = Outcome.returned Status.OK ∧
    m.PreReregisterHook.calls = [HookEvent.DisableHeartbeats] ∧
    m.PreReregisterHook.state.heartbeat_handler_ = some ⟨false⟩ ∧
    m.PreReregisterHook.state.info_ = m.info_ ∧
    ((m.PreReregisterHook.state.PostReregisterHook a2).exit = Outcome.returned Status.OK ↔
      a2 = m.info_.asid) ∧
    (a2 = m.info_.asid →
      (m.PreReregisterHook.state.PostReregisterHook a2).calls = [HookEvent.EnableHeartbeats] ∧
      (m.PreReregisterHook.state.PostReregisterHook a2).state.heartbeat_handler_
        = some ⟨true⟩ ∧
      (m.PreReregisterHook.state.PostReregisterHook a2).state.info_ = m.info_) ∧
    (a2 ≠ m.info_.asid →
      (m.PreReregisterHook.state.PostReregisterHook a2).exit = Outcome.fatal ∧
      (m.PreReregisterHook.state.PostReregisterHook a2).calls = [] ∧
      (m.PreReregisterHook.state.PostReregisterHook a2).state.heartbeat_handler_
        = some ⟨false⟩ ∧
      (m.PreReregisterHook.state.PostReregisterHook a2).state.info_ = m.info_) := by
  by_cases ha : a2 = m.info_.asid
  · simp [Manager.PreReregisterHook, Manager.PostReregisterHook, hh, ha,
      HeartbeatMessageHandler.DisableHeartbeats, HeartbeatMessageHandler.EnableHeartbeats]
  · simp [Manager.PreReregisterHook, Manager.PostReregisterHook, hh, ha,
      HeartbeatMessageHandler.DisableHeartbeats]

/-- Evaluation of C11 on the agent registered with asid 42: after `PreReregisterHook` the
heartbeats are disabled; `PostReregisterHook(42)` returns OK and enables them again;
`PostReregisterHook(43)` is fatal and leaves them disabled. -/
theorem Reregister_hooks_witness :
    registeredAgent.heartbeat_handler_ = some ⟨true⟩ ∧
    registeredAgent.info_.asid = 42 ∧
    registeredAgent.PreReregisterHook.state.heartbeat_handler_ = some ⟨false⟩ ∧
    (registeredAgent.PreReregisterHook.state.PostReregisterHook 42).exit
      = Outcome.returned Status.OK ∧
    (registeredAgent.PreReregisterHook.state.PostReregisterHook 42).state.heartbeat_handler_
      = some ⟨true⟩ ∧
    (registeredAgent.PreReregisterHook.state.PostReregisterHook 43).exit = Outcome.fatal ∧
    (registeredAgent.PreReregisterHook.state.PostReregisterHook 43).state.heartbeat_handler_
      = some ⟨false⟩ :=
  ⟨by decide, by decide,
    (Reregister_hooks registeredAgent ⟨true⟩ 42 (by decide)).2.2.1,
    (Reregister_hooks registeredAgent ⟨true⟩ 42 (by decide)).2.2.2.2.1.2 (by decide),
    ((Reregister_hooks registeredAgent ⟨true⟩ 42 (by decide)).2.2.2.2.2.1 (by decide)).2.1,
    ((Reregister_hooks registeredAgent ⟨true⟩ 43 (by decide)).2.2.2.2.2.2 (by decide)).1,
    ((Reregister_hooks registeredAgent ⟨true⟩ 43 (by decide)).2.2.2.2.2.2 (by decide)).2.2.1⟩

/-- A hook called on an agent whose stored asid is nonzero leaves the stored asid. -/
theorem callHook_asid [DecidableEq MsgCase] (env : RegisterEnv MsgCase Handler Impl)
    (m : Manager MsgCase Handler Impl) (hk : Hook) (h0 : m.info_.asid ≠ 0) :
    (m.callHook env hk).state.info_.asid = m.info_.asid := by
  cases hk with
  | PostRegisterHook asid => simp [Manager.callHook, Manager.PostRegisterHook, h0]
  | PreReregisterHook =>
    simp only [Manager.callHook, Manager.PreReregisterHook]
    split <;> rfl
  | PostReregisterHook asid =>
    simp only [Manager.callHook, Manager.PostReregisterHook]
    split
    · rfl
    · split <;> rfl

/-- C18: `PostRegisterHook(asid)` on an agent whose stored asid is 0 stores `asid`;
on an agent whose stored asid is nonzero it is fatal and changes nothing; neither
`PreReregisterHook` nor `PostReregisterHook` changes the stored asid; so a nonzero stored
asid stays the same through every sequence of later hook calls. -/
theorem asid_assigned_once [DecidableEq MsgCase] (env : RegisterEnv MsgCase Handler Impl)
    (m : Manager MsgCase Handler Impl) (asid : Nat) :
    (m.info_.asid = 0 → (m.PostRegisterHook env asid).state.info_.asid = asid) ∧
    (m.info_.asid ≠ 0 →
      (m.PostRegisterHook env asid).exit = Outcome.fatal ∧
      (m.PostRegisterHook env asid).calls = [] ∧
      (m.PostRegisterHook env asid).state = m) ∧
    m.PreReregisterHook.state.info_.asid = m.info_.asid ∧
    (m.PostReregisterHook asid).state.info_.asid = m.info_.asid ∧
    (m.info_.asid ≠ 0 →
      ∀ hooks : List Hook, (Manager.callHooks env m hooks).info_.asid = m.info_.asid) := by
  refine ⟨fun h0 => ?_, fun h0 => ?_, ?_, ?_, fun h0 hooks => ?_⟩
  · unfold Manager.PostRegisterHook
    simp only [h0, bne_self_eq_false, Bool.false_eq_true, if_false]
    split
    · simp [RegisterBackgroundHelpers_info]
    · rfl
  · simp [Manager.PostRegisterHook, h0]
  · simp only [Manager.PreReregisterHook]
    split <;> rfl
  · simp only [Manager.PostReregisterHook]
    split
    · rfl
    · split <;> rfl
  · induction hooks generalizing m with
    | nil => rfl
    | cons hk rest ih =>
      have hstep := callHook_asid env m hk h0
      unfold Manager.callHooks
      split
      · exact hstep
      · rw [ih _ (by rw [hstep]; exact h0), hstep]

/-- Evaluation of C18: registration with asid 42 stores 42; a second registration with
asid 7 is fatal and keeps 42; after a reregistration and a further attempt to register
the stored asid is still 42. -/
theorem asid_assigned_once_witness :
    freshManager.info_.asid = 0 ∧
    (freshManager.PostRegisterHook quietRegisterEnv 42).exit = Outcome.returned Status.OK ∧
    (freshManager.PostRegisterHook quietRegisterEnv 42).state.info_.asid = 42 ∧
    (registeredAgent.PostRegisterHook quietRegisterEnv 7).exit = Outcome.fatal ∧
    (registeredAgent.PostRegisterHook quietRegisterEnv 7).state.info_.asid = 42 ∧
    (Manager.callHooks quietRegisterEnv registeredAgent
      [Hook.PreReregisterHook, Hook.PostReregisterHook 42, Hook.PostRegisterHook 7,
       Hook.PreReregisterHook]).info_.asid = registeredAgent.info_.asid :=
  ⟨rfl, by decide,
    (asid_assigned_once quietRegisterEnv freshManager 42).1 rfl,
    ((asid_assigned_once quietRegisterEnv registeredAgent 7).2.1 (by decide)).1,
    by decide,
    (asid_assigned_once quietRegisterEnv registeredAgent 7).2.2.2.2 (by decide) _⟩

end pl.vizier.agent

/-! ## Properties of `StirlingImpl` -/

namespace pl.stirling

variable {D : Deps}

/-- The first loop of `SetSubscription` calls `PushData` on subscribed managers only, in
list order: its calls are a prefix of `flushCalls`, and all of `flushCalls` when no check
failed; then the managers are `flushedMgrs`. -/
theorem forEachMgr_flushBody (cb : D.Callback) (mgrs : List D.Mgr) (i : Nat) :
    (forEachMgr (flushBody cb) i mgrs).calls <+: flushCalls cb i mgrs ∧
    ((forEachMgr (flushBody cb) i mgrs).ok = true →
      (forEachMgr (flushBody cb) i mgrs).calls = flushCalls cb i mgrs ∧
      (forEachMgr (flushBody cb) i mgrs).mgrs = flushedMgrs cb mgrs) := by
  induction mgrs generalizing i with
  | nil => simp [forEachMgr, flushCalls, flushedMgrs]
  | cons m rest ih =>
    obtain ⟨ih1, ih2⟩ := ih (i + 1)
    by_cases hsub : D.subscribed m = true
    · by_cases hok : (D.PushData cb m).1.ok = true
      · simp only [forEachMgr, flushBody, hsub, hok, if_true, flushCalls, flushedMgrs,
          List.enumFrom_cons, List.filter_cons, List.map_cons, List.singleton_append,
          List.cons.injEq, true_and]
        exact ⟨(List.prefix_cons_inj _).2 ih1, fun h => ⟨(ih2 h).1, (ih2 h).2⟩⟩
      · simp [forEachMgr, flushBody, hsub, hok, flushCalls, List.enumFrom_cons,
          List.filter_cons]
    · simp only [forEachMgr, flushBody, hsub, if_true, flushCalls, flushedMgrs,
        List.enumFrom_cons, List.filter_cons, List.map_cons, List.nil_append,
        List.cons.injEq, true_and, Bool.false_eq_true, if_false]
      exact ⟨ih1, fun h => ⟨(ih2 h).1, (ih2 h).2⟩⟩

/-- The first loop of `SetSubscription` runs to its end when `PushData` reports OK on
every subscribed manager. -/
theorem forEachMgr_flushBody_ok (cb : D.Callback) (mgrs : List D.Mgr) (i : Nat)
    (hpush : ∀ m ∈ mgrs, D.subscribed m = true → (D.PushData cb m).1.ok = true) :
    (forEachMgr (flushBody cb) i mgrs).ok = true := by
  induction mgrs generalizing i with
  | nil => simp [forEachMgr]
  | cons m rest ih =>
    have hrest := ih (i + 1) fun x hx => hpush x (List.mem_cons_of_mem _ hx)
    by_cases hsub : D.subscribed m = true
    · have hok := hpush m (List.mem_cons_self _ _) hsub
      simp [forEachMgr, flushBody, hsub, hok, hrest]
    · simp [forEachMgr, flushBody, hsub, hrest]

/-- The first loop of `SetSubscription` runs to its end exactly when `PushData` reports
OK on every subscribed manager of the list. -/
theorem forEachMgr_flushBody_ok_iff (cb : D.Callback) (mgrs : List D.Mgr) (i : Nat) :
    (forEachMgr (flushBody cb) i mgrs).ok = true ↔
      ∀ m ∈ mgrs, D.subscribed m = true → (D.PushData cb m).1.ok = true := by
  refine ⟨?_, forEachMgr_flushBody_ok cb mgrs i⟩
  induction mgrs generalizing i with
  | nil => simp
  | cons m rest ih =>
    by_cases hsub : D.subscribed m = true
    · by_cases hok : (D.PushData cb m).1.ok = true
      · simp only [forEachMgr, flushBody, hsub, hok, if_true, List.mem_cons]
        rintro h x (rfl | hx) hx2
        · exact hok
        · exact ih (i + 1) h x hx hx2
      · simp [forEachMgr, flushBody, hsub, hok]
    · simp only [forEachMgr, flushBody, hsub, if_true, Bool.false_eq_true, if_false,
        List.mem_cons]
      rintro h x (rfl | hx) hx2
      · exact absurd hx2 hsub
      · exact ih (i + 1) h x hx hx2

/-- C2, counterexample: a Subscribe message that names an info class twice makes
`UpdateSchemaFromSubscribe` fail; `SetSubscription` then returns nothing to its caller
(the check ends the process), and by then the one subscribed manager has been pushed and
the old table dropped, so neither the managers nor the tables list are as before. -/
theorem SetSubscription_failure_not_returned :
    (specDeps.UpdateSchemaFromSubscribe subscribeTwice
        (flushedMgrs (7 : Nat) [specMgr 1 true 0 true])).1.ok = false ∧
    (SetSubscription (specStirling [specMgr 1 true 0 true] [oldTable]) subscribeTwice).exit
      = Outcome.fatal ∧
    (specStirling [specMgr 1 true 0 true] [oldTable]).tables_ = [oldTable] ∧
    (SetSubscription (specStirling [specMgr 1 true 0 true] [oldTable]) subscribeTwice).state.tables_
      = [] ∧
    (SetSubscription (specStirling [specMgr 1 true 0 true] [oldTable])
        subscribeTwice).state.info_class_mgrs_
      ≠ (specStirling [specMgr 1 true 0 true] [oldTable]).info_class_mgrs_ := by
  decide

/-- C2, amended: `SetSubscription` never returns a failure: it returns OK or the process
ends at a failed check. When the flush of the old tables succeeds and
`UpdateSchemaFromSubscribe` fails, the process ends at that check, after `PushData` on the
subscribed managers and `tables_.clear()`: the tables list is empty and the managers are
as the failed update left them. -/
theorem SetSubscription_failed_update (s : StirlingImpl D) (sub : D.Subscribe) :
    ((SetSubscription s sub).exit = Outcome.fatal ∨
      (SetSubscription s sub).exit = Outcome.returned Status.OK) ∧
    ((∀ m ∈ s.info_class_mgrs_, D.subscribed m = true →
        (D.PushData s.agent_callback_ m).1.ok = true) →
      (D.UpdateSchemaFromSubscribe sub
        (flushedMgrs s.agent_callback_ s.info_class_mgrs_)).1.ok = false →
      (SetSubscription s sub).exit = Outcome.fatal ∧
      (SetSubscription s sub).state.tables_ = [] ∧
      (SetSubscription s sub).state.info_class_mgrs_ =
        (D.UpdateSchemaFromSubscribe sub
          (flushedMgrs s.agent_callback_ s.info_class_mgrs_)).2 ∧
      (SetSubscription s sub).calls =
        flushCalls s.agent_callback_ 0 s.info_class_mgrs_ ++
          [Event.tables_clear, Event.UpdateSchemaFromSubscribe]) := by
  constructor
  · unfold SetSubscription
    by_cases hok : (forEachMgr (flushBody s.agent_callback_) 0 s.info_class_mgrs_).ok = true
    · by_cases hu : (D.UpdateSchemaFromSubscribe sub
          (forEachMgr (flushBody s.agent_callback_) 0 s.info_class_mgrs_).mgrs).1.ok = true
      · simp [hok, hu]
      · simp [hok, hu]
    · simp [hok]
  · intro hpush hfail
    have hok := forEachMgr_flushBody_ok s.agent_callback_ s.info_class_mgrs_ 0 hpush
    have hl := (forEachMgr_flushBody s.agent_callback_ s.info_class_mgrs_ 0).2 hok
    simp [SetSubscription, hok, hl.1, hl.2, hfail]

/-- Evaluation of C2, amended, on the state and message of the counterexample. -/
theorem SetSubscription_failed_update_witness :
    (SetSubscription (specStirling [specMgr 1 true 0 true] [oldTable]) subscribeTwice).exit
      = Outcome.fatal ∧
    (SetSubscription (specStirling [specMgr 1 true 0 true] [oldTable]) subscribeTwice).state.tables_
      = [] ∧
    (SetSubscription (specStirling [specMgr 1 true 0 true] [oldTable])
        subscribeTwice).state.info_class_mgrs_ =
      (specDeps.UpdateSchemaFromSubscribe subscribeTwice
        (flushedMgrs (specStirling [specMgr 1 true 0 true] [oldTable]).agent_callback_
          (specStirling [specMgr 1 true 0 true] [oldTable]).info_class_mgrs_)).2 ∧
    (SetSubscription (specStirling [specMgr 1 true 0 true] [oldTable]) subscribeTwice).calls =
      flushCalls (specStirling [specMgr 1 true 0 true] [oldTable]).agent_callback_ 0
        (specStirling [specMgr 1 true 0 true] [oldTable]).info_class_mgrs_ ++
        [Event.tables_clear, Event.UpdateSchemaFromSubscribe] :=
  (SetSubscription_failed_update (specStirling [specMgr 1 true 0 true] [oldTable])
    subscribeTwice).2 (by decide) (by decide)

/-- C5, the code at the failing input: on a collector whose scheduler thread was started with
`RunAsThread` and stopped with `Stop`, without `WaitForThreadJoin`, `run_enable_` is false
and `RunAsThread` does not return OK: the assignment of the new thread to the still
joinable `run_thread_` ends the process. -/
theorem RunAsThread_after_Stop :
    (Stop (RunAsThread (specStirling [] [])).state).run_enable_ = false ∧
    (Stop (RunAsThread (specStirling [] [])).state).run_thread_joinable = true ∧
    (RunAsThread (Stop (RunAsThread (specStirling [] [])).state)).exit = Outcome.fatal ∧
    (RunAsThread (Stop (RunAsThread (specStirling [] [])).state)).exit
      ≠ Outcome.returned Status.OK := by
  decide

/-- The three cases of `RunAsThread`: called while `run_enable_` is true it returns an
`AlreadyExists` error, starts no thread and leaves the object as it was, `run_enable_`
still true; called while `run_enable_` is false and `run_thread_` is not joinable it
returns OK, sets `run_enable_` and starts one thread; called while `run_enable_` is false
and `run_thread_` is still joinable it sets `run_enable_` and the process ends. -/
theorem RunAsThread_contract (s : StirlingImpl D) :
    (s.run_enable_ = true →
      (RunAsThread s).exit =
        Outcome.returned (error.AlreadyExists "A Stirling thread is already running.") ∧
      (RunAsThread s).calls = [] ∧
      (RunAsThread s).state = s ∧
      (RunAsThread s).state.run_enable_ = true) ∧
    (s.run_enable_ = false → s.run_thread_joinable = false →
      (RunAsThread s).exit = Outcome.returned Status.OK ∧
      (RunAsThread s).calls = [Event.thread_start] ∧
      (RunAsThread s).state.run_enable_ = true ∧
      (RunAsThread s).state.run_thread_joinable = true ∧
      (RunAsThread s).state.info_class_mgrs_ = s.info_class_mgrs_ ∧
      (RunAsThread s).state.tables_ = s.tables_) ∧
    (s.run_enable_ = false → s.run_thread_joinable = true →
      (RunAsThread s).exit = Outcome.fatal ∧
      (RunAsThread s).state.run_enable_ = true) := by
  refine ⟨fun h => ?_, fun h hj => ?_, fun h hj => ?_⟩
  · cases s
    simp_all [RunAsThread]
  · simp [RunAsThread, h, hj]
  · simp [RunAsThread, h, hj]

/-- Evaluation of the cases of `RunAsThread`: the first `RunAsThread` on a new collector returns OK and
starts a thread; a second one on the resulting state returns `AlreadyExists`, starts
nothing and leaves `run_enable_` true; after `Stop` and `WaitForThreadJoin` the scheduler
can be started again. -/
theorem RunAsThread_contract_witness :
    ((RunAsThread (specStirling [] [])).exit = Outcome.returned Status.OK ∧
      (RunAsThread (specStirling [] [])).state.run_enable_ = true ∧
      (RunAsThread (specStirling [] [])).calls = [Event.thread_start]) ∧
    ((RunAsThread (RunAsThread (specStirling [] [])).state).exit =
        Outcome.returned ⟨Code.ALREADY_EXISTS, "A Stirling thread is already running."⟩ ∧
      (RunAsThread (RunAsThread (specStirling [] [])).state).calls = [] ∧
      (RunAsThread (RunAsThread (specStirling [] [])).state).state.run_enable_ = true) ∧
    (RunAsThread (WaitForThreadJoin (Stop (RunAsThread (specStirling [] [])).state))).exit
      = Outcome.returned Status.OK ∧
    ((RunAsThread (Stop (RunAsThread (specStirling [] [])).state)).exit = Outcome.fatal ∧
      (RunAsThread (Stop (RunAsThread (specStirling [] [])).state)).state.run_enable_ = true) :=
  ⟨⟨((RunAsThread_contract (specStirling [] [])).2.1 rfl rfl).1,
     ((RunAsThread_contract (specStirling [] [])).2.1 rfl rfl).2.2.1,
     ((RunAsThread_contract (specStirling [] [])).2.1 rfl rfl).2.1⟩,
   ⟨((RunAsThread_contract (RunAsThread (specStirling [] [])).state).1 rfl).1,
     ((RunAsThread_contract (RunAsThread (specStirling [] [])).state).1 rfl).2.1,
     ((RunAsThread_contract (RunAsThread (specStirling [] [])).state).1 rfl).2.2.2⟩,
   ((RunAsThread_contract
      (WaitForThreadJoin (Stop (RunAsThread (specStirling [] [])).state))).2.1 rfl rfl).1,
   (RunAsThread_contract (Stop (RunAsThread (specStirling [] [])).state)).2.2 rfl rfl⟩

/-- C8, counterexample: a sleep duration of exactly 1 ms is not below the threshold of
1 ms, and `SleepForDuration` does not sleep for it. -/
theorem SleepForDuration_one_ms :
    ¬ ((1 : Int) < kMinSleepDuration) ∧ (1 : Int) ≥ 1 ∧
    (SleepForDuration 1 : List (Event Unit)) = [] := by
  decide

/-- C8, amended: `SleepForDuration(d)` sleeps, for `d`, if and only if `d` is strictly
greater than the threshold of 1 ms; for `d` of 1 ms or less it does not sleep at all. -/
theorem SleepForDuration_iff {C : Type} (d : Int) :
    ((SleepForDuration d : List (Event C)) = [Event.sleep_for d] ↔ 1 < d) ∧
    ((SleepForDuration d : List (Event C)) = [] ↔ d ≤ 1) := by
  by_cases h : 1 < d
  · simp [SleepForDuration, kMinSleepDuration, h]
  · simp [SleepForDuration, kMinSleepDuration, h, not_lt.mp h]

/-- The calls of the body of the loop of `RunCore` on one manager: `SampleData` when the
manager is subscribed and sampling is required, then `PushData` when moreover the sample
check passed and `PushRequired()` holds on the manager as the sample phase left it. -/
theorem tickBody_calls (cb : D.Callback) (i : Nat) (m : D.Mgr) :
    (tickBody cb i m).calls =
      (if D.subscribed m && D.SamplingRequired m then [Event.SampleData i] else []) ++
      (if D.subscribed m && (samplePhase i m).ok && D.PushRequired (samplePhase i m).mgr
        then [Event.PushData i cb] else []) := by
  by_cases hsub : D.subscribed m = true
  · by_cases hreq : D.SamplingRequired m = true
    · by_cases hok : (D.SampleData m).1.ok = true
      · by_cases hp : D.PushRequired (D.SampleData m).2 = true <;>
          simp [tickBody, samplePhase, pushPhase, hsub, hreq, hok, hp]
      · simp [tickBody, samplePhase, pushPhase, hsub, hreq, hok]
    · by_cases hp : D.PushRequired m = true <;>
        simp [tickBody, samplePhase, pushPhase, hsub, hreq, hp]
  · simp [tickBody, hsub]

/-- A `SampleData` that reports an error ends the body of the loop of `RunCore` at that
call. -/
theorem tickBody_sample_error (cb : D.Callback) (i : Nat) (m : D.Mgr)
    (hsub : D.subscribed m = true) (hreq : D.SamplingRequired m = true)
    (herr : (D.SampleData m).1.ok = false) :
    (tickBody cb i m).ok = false ∧ (tickBody cb i m).calls = [Event.SampleData i] := by
  simp [tickBody, samplePhase, hsub, hreq, herr]

/-- Every call of the loop of `RunCore` over managers at positions `i`, `i + 1`, ... is a
`SampleData` or `PushData` on a manager of the list, at its position. -/
theorem forEachMgr_tickBody_slot (cb : D.Callback) (mgrs : List D.Mgr) (i : Nat) :
    ∀ e ∈ (forEachMgr (tickBody cb) i mgrs).calls,
      ∃ k, i ≤ k ∧ k < i + mgrs.length ∧
        (e = Event.SampleData k ∨ e = Event.PushData k cb) := by
  induction mgrs generalizing i with
  | nil => simp [forEachMgr]
  | cons m rest ih =>
    intro e he
    have hbody : ∀ x ∈ (tickBody cb i m).calls,
        x = Event.SampleData i ∨ x = Event.PushData i cb := by
      intro x hx
      rw [tickBody_calls] at hx
      rcases List.mem_append.1 hx with h | h
      · split at h
        · exact Or.inl (List.mem_singleton.1 h)
        · simp at h
      · split at h
        · exact Or.inr (List.mem_singleton.1 h)
        · simp at h
    by_cases hok : (tickBody cb i m).ok = true
    · simp only [forEachMgr, hok, if_true, List.mem_append] at he
      rcases he with he | he
      · exact ⟨i, le_refl _, by simp, hbody e he⟩
      · obtain ⟨k, hk1, hk2, hk3⟩ := ih (i + 1) e he
        exact ⟨k, by omega, by simp only [List.length_cons]; omega, hk3⟩
    · simp only [forEachMgr, hok, Bool.false_eq_true, if_false] at he
      exact ⟨i, le_refl _, by simp, hbody e he⟩

/-- Number of `SampleData` calls on the manager at position `j` in the loop of `RunCore`:
none for a position before the first, at most one, and exactly one when the loop runs
to its end and the manager is subscribed with sampling required. -/
theorem forEachMgr_tickBody_count (cb : D.Callback) (mgrs : List D.Mgr) (i j : Nat) :
    (j < i → (forEachMgr (tickBody cb) i mgrs).calls.countP (Event.isSampleOf j) = 0) ∧
    (forEachMgr (tickBody cb) i mgrs).calls.countP (Event.isSampleOf j) ≤ 1 ∧
    ((forEachMgr (tickBody cb) i mgrs).ok = true → i ≤ j →
      ∀ m, mgrs[j - i]? = some m → D.subscribed m = true → D.SamplingRequired m = true →
        (forEachMgr (tickBody cb) i mgrs).calls.countP (Event.isSampleOf j) = 1) := by
  induction mgrs generalizing i with
  | nil => simp [forEachMgr]
  | cons m rest ih =>
    obtain ⟨ih0, ih1, ih2⟩ := ih (i + 1)
    have hbody : (tickBody cb i m).calls.countP (Event.isSampleOf j) =
        if j = i ∧ D.subscribed m = true ∧ D.SamplingRequired m = true then 1 else 0 := by
      rw [tickBody_calls]
      rcases eq_or_ne j i with hji | hji
      · by_cases h1 : D.subscribed m = true <;>
          by_cases h2 : D.SamplingRequired m = true <;>
          by_cases h3 : (samplePhase i m).ok = true <;>
          by_cases h4 : D.PushRequired (samplePhase i m).mgr = true <;>
          simp [h1, h2, h3, h4, hji, Event.isSampleOf, List.countP_cons]
      · have hij : i ≠ j := hji.symm
        by_cases h1 : D.subscribed m = true <;>
          by_cases h2 : D.SamplingRequired m = true <;>
          by_cases h3 : (samplePhase i m).ok = true <;>
          by_cases h4 : D.PushRequired (samplePhase i m).mgr = true <;>
          simp [h1, h2, h3, h4, hji, hij, Event.isSampleOf, List.countP_cons]
    by_cases hok : (tickBody cb i m).ok = true
    · simp only [forEachMgr, hok, if_true, List.countP_append, hbody]
      refine ⟨fun hlt => ?_, ?_, fun hrest hle x hx hsub hreq => ?_⟩
      · have := ih0 (by omega)
        have hne : ¬ (j = i ∧ D.subscribed m = true ∧ D.SamplingRequired m = true) :=
          fun h => by omega
        simp [this, hne]
      · by_cases hji : j = i
        · have := ih0 (by omega)
          rw [this]
          split <;> simp
        · have hne : ¬ (j = i ∧ D.subscribed m = true ∧ D.SamplingRequired m = true) :=
            fun h => hji h.1
          simpa [hne] using ih1
      · by_cases hji : j = i
        · subst hji
          have := ih0 (by omega)
          simp only [Nat.sub_self, List.getElem?_cons_zero, Option.some.injEq] at hx
          subst hx
          simp [this, hsub, hreq]
        · have hne : ¬ (j = i ∧ D.subscribed m = true ∧ D.SamplingRequired m = true) :=
            fun h => hji h.1
          have hidx : j - i = (j - (i + 1)) + 1 := by omega
          rw [hidx, List.getElem?_cons_succ] at hx
          have := ih2 hrest (by omega) x hx hsub hreq
          simp [hne, this]
    · simp only [forEachMgr, hok, Bool.false_eq_true, if_false, hbody]
      refine ⟨fun hlt => ?_, ?_, fun h => by simp at h⟩
      · have hne : ¬ (j = i ∧ D.subscribed m = true ∧ D.SamplingRequired m = true) :=
          fun h => by omega
        simp [hne]
      · split <;> simp

/-- The calls of the body of the loop of `RunCore` on the manager at position `i` are
calls on that manager. -/
theorem tickBody_mem (cb : D.Callback) (i : Nat) (m : D.Mgr) :
    ∀ x ∈ (tickBody cb i m).calls, x = Event.SampleData i ∨ x = Event.PushData i cb := by
  intro x hx
  rw [tickBody_calls] at hx
  rcases List.mem_append.1 hx with h | h
  · split at h
    · exact Or.inl (List.mem_singleton.1 h)
    · simp at h
  · split at h
    · exact Or.inr (List.mem_singleton.1 h)
    · simp at h

/-- The calls of the loop of `RunCore` are in registry order. -/
theorem forEachMgr_tickBody_pairwise (cb : D.Callback) (mgrs : List D.Mgr) (i : Nat) :
    (forEachMgr (tickBody cb) i mgrs).calls.Pairwise fun a b => a.precedes b = true := by
  induction mgrs generalizing i with
  | nil => simp [forEachMgr]
  | cons m rest ih =>
    have hbody : (tickBody cb i m).calls.Pairwise fun a b => a.precedes b = true := by
      rw [tickBody_calls]
      split <;> split <;> simp [Event.precedes, Event.slot]
    by_cases hok : (tickBody cb i m).ok = true
    · simp only [forEachMgr, hok, if_true]
      refine List.pairwise_append.2 ⟨hbody, ih (i + 1), fun a ha b hb => ?_⟩
      obtain ⟨k, hk1, -, hk3⟩ := forEachMgr_tickBody_slot cb rest (i + 1) b hb
      have hik : i < k := by omega
      rcases tickBody_mem cb i m a ha with rfl | rfl <;> rcases hk3 with rfl | rfl <;>
        simp [Event.precedes, Event.slot, hik]
    · simpa [forEachMgr, hok] using hbody

/-- A `PushData` call of the loop of `RunCore` is made with the callback of the loop, on
a subscribed manager for which `PushRequired()` holds after the sample phase. -/
theorem forEachMgr_tickBody_push (cb : D.Callback) (mgrs : List D.Mgr) (i k : Nat)
    (cb2 : D.Callback) (h : Event.PushData k cb2 ∈ (forEachMgr (tickBody cb) i mgrs).calls) :
    i ≤ k ∧ cb2 = cb ∧ ∃ m, mgrs[k - i]? = some m ∧ D.subscribed m = true ∧
      D.PushRequired (samplePhase k m).mgr = true := by
  induction mgrs generalizing i with
  | nil => simp [forEachMgr] at h
  | cons m rest ih =>
    have hbody : Event.PushData k cb2 ∈ (tickBody cb i m).calls →
        i ≤ k ∧ cb2 = cb ∧ ∃ x, (m :: rest)[k - i]? = some x ∧ D.subscribed x = true ∧
          D.PushRequired (samplePhase k x).mgr = true := by
      intro hb
      rw [tickBody_calls] at hb
      rcases List.mem_append.1 hb with hb | hb
      · split at hb <;> simp at hb
      · split at hb
        · rename_i hc
          simp only [List.mem_singleton, Event.PushData.injEq] at hb
          obtain ⟨rfl, rfl⟩ := hb
          simp only [Bool.and_eq_true] at hc
          exact ⟨le_refl _, rfl, m, by simp, hc.1.1, hc.2⟩
        · simp at hb
    by_cases hok : (tickBody cb i m).ok = true
    · simp only [forEachMgr, hok, if_true, List.mem_append] at h
      rcases h with h | h
      · exact hbody h
      · obtain ⟨h1, h2, x, hx, hx2, hx3⟩ := ih (i + 1) h
        have hidx : k - i = (k - (i + 1)) + 1 := by omega
        exact ⟨by omega, h2, x, by rw [hidx, List.getElem?_cons_succ]; exact hx, hx2, hx3⟩
    · simp only [forEachMgr, hok, Bool.false_eq_true, if_false] at h
      exact hbody h

/-- A `SampleData` call of the loop of `RunCore` that reports an error is the last call
of the loop, which does not run to its end. -/
theorem forEachMgr_tickBody_error (cb : D.Callback) (mgrs : List D.Mgr) (i j : Nat)
    (m : D.Mgr) (hcall : Event.SampleData j ∈ (forEachMgr (tickBody cb) i mgrs).calls)
    (hm : mgrs[j - i]? = some m) (herr : (D.SampleData m).1.ok = false) :
    (forEachMgr (tickBody cb) i mgrs).ok = false ∧
    (forEachMgr (tickBody cb) i mgrs).calls.getLast? = some (Event.SampleData j) := by
  induction mgrs generalizing i with
  | nil => simp [forEachMgr] at hcall
  | cons m0 rest ih =>
    have hbody : Event.SampleData j ∈ (tickBody cb i m0).calls →
        (tickBody cb i m0).ok = false ∧ (tickBody cb i m0).calls = [Event.SampleData j] := by
      intro hb
      have hb2 := hb
      rw [tickBody_calls] at hb
      rcases List.mem_append.1 hb with hb | hb
      · split at hb
        · rename_i hc
          simp only [List.mem_singleton, Event.SampleData.injEq] at hb
          subst hb
          simp only [Nat.sub_self, List.getElem?_cons_zero, Option.some.injEq] at hm
          subst hm
          simp only [Bool.and_eq_true] at hc
          exact tickBody_sample_error cb j m0 hc.1 hc.2 herr
        · simp at hb
      · split at hb <;> simp at hb
    by_cases hok : (tickBody cb i m0).ok = true
    · simp only [forEachMgr, hok, if_true, List.mem_append] at hcall ⊢
      rcases hcall with h | h
      · have := (hbody h).1
        rw [hok] at this
        cases this
      · obtain ⟨k, hk1, -, hk3⟩ := forEachMgr_tickBody_slot cb rest (i + 1) _ h
        have hkj : k = j := by
          rcases hk3 with hk3 | hk3
          · exact (Event.SampleData.inj hk3).symm
          · cases hk3
        subst hkj
        have hidx : k - i = (k - (i + 1)) + 1 := by omega
        rw [hidx, List.getElem?_cons_succ] at hm
        obtain ⟨h1, h2⟩ := ih (i + 1) h hm
        exact ⟨h1, by simp [List.getLast?_append, h2]⟩
    · simp only [forEachMgr, hok, Bool.false_eq_true, if_false] at hcall ⊢
      obtain ⟨-, h2⟩ := hbody hcall
      exact ⟨trivial, by simp [h2]⟩

/-- The calls and the exit of a tick are those of its loop over the managers. -/
theorem RunCoreTick_loop (s : StirlingImpl D) (clock_ns : Int) :
    (RunCoreTick s clock_ns).calls =
      (forEachMgr (tickBody s.agent_callback_) 0 s.info_class_mgrs_).calls ∧
    ((RunCoreTick s clock_ns).exit = Outcome.fatal ↔
      (forEachMgr (tickBody s.agent_callback_) 0 s.info_class_mgrs_).ok = false) := by
  by_cases hok : (forEachMgr (tickBody s.agent_callback_) 0 s.info_class_mgrs_).ok = true <;>
    simp [RunCoreTick, hok]

/-- The checks of the body of the loop of `RunCore` pass on a manager exactly when the
calls it makes on that manager report OK: `SampleData` when the manager is subscribed and
sampling is required, and `PushData` when `PushRequired()` holds afterwards. -/
theorem tickBody_ok_iff (cb : D.Callback) (i : Nat) (m : D.Mgr) :
    (tickBody cb i m).ok = true ↔
      (D.subscribed m = true →
        (D.SamplingRequired m = true → (D.SampleData m).1.ok = true ∧
          (D.PushRequired (D.SampleData m).2 = true →
            (D.PushData cb (D.SampleData m).2).1.ok = true)) ∧
        (D.SamplingRequired m = false → D.PushRequired m = true →
          (D.PushData cb m).1.ok = true)) := by
  by_cases hsub : D.subscribed m = true
  · by_cases hreq : D.SamplingRequired m = true
    · by_cases hok : (D.SampleData m).1.ok = true
      · by_cases hpr : D.PushRequired (D.SampleData m).2 = true <;>
          simp [tickBody, samplePhase, pushPhase, hsub, hreq, hok, hpr]
      · simp [tickBody, samplePhase, pushPhase, hsub, hreq, hok]
    · by_cases hpr : D.PushRequired m = true <;>
        simp [tickBody, samplePhase, pushPhase, hsub, hreq, hpr]
  · simp [tickBody, hsub]

/-- The loop of `RunCore` runs to its end exactly when the checks of its body pass on
every manager of the list. -/
theorem forEachMgr_tickBody_ok_iff (cb : D.Callback) (mgrs : List D.Mgr) (i : Nat) :
    (forEachMgr (tickBody cb) i mgrs).ok = true ↔
      ∀ x ∈ mgrs, D.subscribed x = true →
        (D.SamplingRequired x = true → (D.SampleData x).1.ok = true ∧
          (D.PushRequired (D.SampleData x).2 = true →
            (D.PushData cb (D.SampleData x).2).1.ok = true)) ∧
        (D.SamplingRequired x = false → D.PushRequired x = true →
          (D.PushData cb x).1.ok = true) := by
  induction mgrs generalizing i with
  | nil => simp [forEachMgr]
  | cons m rest ih =>
    have hb := tickBody_ok_iff cb i m
    by_cases hok : (tickBody cb i m).ok = true
    · simp only [forEachMgr, hok, if_true, List.mem_cons, forall_eq_or_imp]
      exact ⟨fun h => ⟨hb.1 hok, (ih (i + 1)).1 h⟩, fun h => (ih (i + 1)).2 h.2⟩
    · simp only [forEachMgr, hok, Bool.false_eq_true, if_false, List.mem_cons,
        forall_eq_or_imp, false_iff]
      exact fun h => hok (hb.2 h.1)

/-- C3, counterexample: two managers are subscribed and due for sampling at the start of
the tick, and `SampleData` of the first reports an error. The check ends the process at
that call, and `SampleData` is not called on the second manager in that tick. -/
theorem RunCoreTick_second_not_sampled :
    (specStirling failingMgrs []).info_class_mgrs_[1]? = some (specMgr 2 true 0 true) ∧
    specDeps.subscribed (specMgr 2 true 0 true) = true ∧
    specDeps.SamplingRequired (specMgr 2 true 0 true) = true ∧
    (RunCoreTick (specStirling failingMgrs []) 0).calls.countP (Event.isSampleOf 1) = 0 ∧
    (RunCoreTick (specStirling failingMgrs []) 0).exit = Outcome.fatal := by
  decide

/-- C3, amended: in one tick, `SampleData()` is called at most once on a manager that is
subscribed at the start of the tick and for which `SamplingRequired()` holds, and exactly
once when the tick runs to its end (no `PL_CHECK_OK` of the tick ends the process). The
tick runs to its end exactly when the calls it makes report OK: on every subscribed
manager of the list, `SampleData()` if sampling is required, and `PushData` if
`PushRequired()` holds afterwards. -/
theorem RunCoreTick_samples_once (s : StirlingImpl D) (clock_ns : Int) (i : Nat) (m : D.Mgr)
    (hm : s.info_class_mgrs_[i]? = some m) (hsub : D.subscribed m = true)
    (hreq : D.SamplingRequired m = true) :
    (RunCoreTick s clock_ns).calls.countP (Event.isSampleOf i) ≤ 1 ∧
    ((RunCoreTick s clock_ns).exit ≠ Outcome.fatal →
      (RunCoreTick s clock_ns).calls.countP (Event.isSampleOf i) = 1) ∧
    ((RunCoreTick s clock_ns).exit ≠ Outcome.fatal ↔
      ∀ x ∈ s.info_class_mgrs_, D.subscribed x = true →
        (D.SamplingRequired x = true → (D.SampleData x).1.ok = true ∧
          (D.PushRequired (D.SampleData x).2 = true →
            (D.PushData s.agent_callback_ (D.SampleData x).2).1.ok = true)) ∧
        (D.SamplingRequired x = false → D.PushRequired x = true →
          (D.PushData s.agent_callback_ x).1.ok = true)) := by
  obtain ⟨hcalls, hexit⟩ := RunCoreTick_loop s clock_ns
  obtain ⟨-, h1, h2⟩ := forEachMgr_tickBody_count s.agent_callback_ s.info_class_mgrs_ 0 i
  rw [hcalls]
  refine ⟨h1, fun hne => h2 ?_ (Nat.zero_le _) m (by simpa using hm) hsub hreq, ?_⟩
  · by_contra hok
    exact hne (hexit.2 (by simpa using hok))
  · rw [← forEachMgr_tickBody_ok_iff s.agent_callback_ s.info_class_mgrs_ 0, Ne, hexit]
    simp

/-- Evaluation of C3, amended, on three managers, the first and the third subscribed and
due, whose calls all report OK: the tick runs to its end and samples the manager at
position 2 once. -/
theorem RunCoreTick_samples_once_witness :
    (RunCoreTick (specStirling threeMgrs []) 0).calls =
      [Event.SampleData 0, Event.PushData 0 (7 : Nat), Event.SampleData 2,
       Event.PushData 2 7] ∧
    (RunCoreTick (specStirling threeMgrs []) 0).exit ≠ Outcome.fatal ∧
    (RunCoreTick (specStirling threeMgrs []) 0).calls.countP (Event.isSampleOf 2) = 1 :=
  ⟨by decide,
    (RunCoreTick_samples_once (specStirling threeMgrs []) 0 2 (specMgr 3 true 0 true)
      (by decide) (by decide) (by decide)).2.2.2 (by decide),
    (RunCoreTick_samples_once (specStirling threeMgrs []) 0 2 (specMgr 3 true 0 true)
      (by decide) (by decide) (by decide)).2.1 (by decide)⟩

/-- A `PushData` call of the body of the loop of `RunCore` is made with the callback of
the loop on a subscribed manager, in one of two cases: sampling was required, then
`SampleData()` was called before it and reported OK, and `PushRequired()` holds on the
manager as `SampleData()` left it; or sampling was not required, no `SampleData()` was
called, and `PushRequired()` holds on the manager as it was. -/
theorem tickBody_push_cases (cb cb2 : D.Callback) (i k : Nat) (m : D.Mgr)
    (h : Event.PushData k cb2 ∈ (tickBody cb i m).calls) :
    k = i ∧ cb2 = cb ∧ D.subscribed m = true ∧
      ((D.SamplingRequired m = true ∧ (D.SampleData m).1.ok = true ∧
          D.PushRequired (D.SampleData m).2 = true ∧
          (tickBody cb i m).calls = [Event.SampleData i, Event.PushData i cb]) ∨
        (D.SamplingRequired m = false ∧ D.PushRequired m = true ∧
          (tickBody cb i m).calls = [Event.PushData i cb])) := by
  by_cases hsub : D.subscribed m = true
  · by_cases hreq : D.SamplingRequired m = true
    · by_cases hok : (D.SampleData m).1.ok = true
      · by_cases hpr : D.PushRequired (D.SampleData m).2 = true
        · simp only [tickBody, samplePhase, pushPhase, hsub, hreq, hok, hpr, if_true,
            List.singleton_append, List.mem_cons, List.mem_singleton, List.not_mem_nil,
            or_false, false_or, Event.PushData.injEq, reduceCtorEq] at h
          simp [tickBody, samplePhase, pushPhase, hsub, hreq, hok, hpr, h.1, h.2]
        · simp [tickBody, samplePhase, pushPhase, hsub, hreq, hok, hpr] at h
      · simp [tickBody, samplePhase, pushPhase, hsub, hreq, hok] at h
    · by_cases hpr : D.PushRequired m = true
      · simp only [tickBody, samplePhase, pushPhase, hsub, hreq, hpr, if_true,
          Bool.false_eq_true, if_false, List.nil_append, List.mem_singleton,
          Event.PushData.injEq] at h
        simp [tickBody, samplePhase, pushPhase, hsub, hreq, hpr, h.1, h.2]
      · simp [tickBody, samplePhase, pushPhase, hsub, hreq, hpr] at h
  · simp [tickBody, hsub] at h

/-- A `PushData` call of the loop of `RunCore` is made with the callback of the loop on a
subscribed manager of the list; when sampling was required on it, its `SampleData()` was
called in the loop and reported OK, and `PushRequired()` holds on the manager as
`SampleData()` left it; when not, `PushRequired()` holds on the manager as it was. -/
theorem forEachMgr_tickBody_push_state (cb : D.Callback) (mgrs : List D.Mgr) (i k : Nat)
    (cb2 : D.Callback) (h : Event.PushData k cb2 ∈ (forEachMgr (tickBody cb) i mgrs).calls) :
    i ≤ k ∧ cb2 = cb ∧ ∃ m, mgrs[k - i]? = some m ∧ D.subscribed m = true ∧
      ((D.SamplingRequired m = true ∧
          Event.SampleData k ∈ (forEachMgr (tickBody cb) i mgrs).calls ∧
          (D.SampleData m).1.ok = true ∧ D.PushRequired (D.SampleData m).2 = true) ∨
        (D.SamplingRequired m = false ∧ D.PushRequired m = true)) := by
  induction mgrs generalizing i with
  | nil => simp [forEachMgr] at h
  | cons m rest ih =>
    have hbody : Event.PushData k cb2 ∈ (tickBody cb i m).calls →
        i ≤ k ∧ cb2 = cb ∧ ∃ x, (m :: rest)[k - i]? = some x ∧ D.subscribed x = true ∧
          ((D.SamplingRequired x = true ∧ Event.SampleData k ∈ (tickBody cb i m).calls ∧
              (D.SampleData x).1.ok = true ∧ D.PushRequired (D.SampleData x).2 = true) ∨
            (D.SamplingRequired x = false ∧ D.PushRequired x = true)) := by
      intro hb
      obtain ⟨rfl, rfl, hsub, hc⟩ := tickBody_push_cases cb cb2 i k m hb
      refine ⟨le_refl _, rfl, m, by simp, hsub, ?_⟩
      rcases hc with ⟨h1, h2, h3, h4⟩ | ⟨h1, h2, -⟩
      · exact Or.inl ⟨h1, by rw [h4]; simp, h2, h3⟩
      · exact Or.inr ⟨h1, h2⟩
    by_cases hok : (tickBody cb i m).ok = true
    · simp only [forEachMgr, hok, if_true, List.mem_append] at h ⊢
      rcases h with h | h
      · obtain ⟨h1, h2, x, hx, hx2, hx3⟩ := hbody h
        refine ⟨h1, h2, x, hx, hx2, ?_⟩
        rcases hx3 with ⟨a, b, c, d⟩ | hx3
        · exact Or.inl ⟨a, Or.inl b, c, d⟩
        · exact Or.inr hx3
      · obtain ⟨h1, h2, x, hx, hx2, hx3⟩ := ih (i + 1) h
        have hidx : k - i = (k - (i + 1)) + 1 := by omega
        refine ⟨by omega, h2, x, by rw [hidx, List.getElem?_cons_succ]; exact hx, hx2, ?_⟩
        rcases hx3 with ⟨a, b, c, d⟩ | hx3
        · exact Or.inl ⟨a, Or.inr b, c, d⟩
        · exact Or.inr hx3
    · simp only [forEachMgr, hok, Bool.false_eq_true, if_false] at h ⊢
      exact hbody h

/-- When the loop of `RunCore` runs to its end, `PushData` is called on every subscribed
manager of the list for which `PushRequired()` holds after its sample phase: on the
manager as `SampleData()` left it when sampling was required, on the manager as it was
when not. -/
theorem forEachMgr_tickBody_pushed (cb : D.Callback) (mgrs : List D.Mgr) (i k : Nat)
    (m : D.Mgr) (hok : (forEachMgr (tickBody cb) i mgrs).ok = true)
    (hm : mgrs[k]? = some m) (hsub : D.subscribed m = true)
    (hc : (D.SamplingRequired m = true ∧ D.PushRequired (D.SampleData m).2 = true) ∨
      (D.SamplingRequired m = false ∧ D.PushRequired m = true)) :
    Event.PushData (i + k) cb ∈ (forEachMgr (tickBody cb) i mgrs).calls := by
  induction mgrs generalizing i k with
  | nil => simp at hm
  | cons m0 rest ih =>
    by_cases hb : (tickBody cb i m0).ok = true
    · simp only [forEachMgr, hb, if_true] at hok ⊢
      cases k with
      | zero =>
        simp only [List.getElem?_cons_zero, Option.some.injEq] at hm
        subst hm
        refine List.mem_append_left _ ?_
        have hbo := (tickBody_ok_iff cb i m0).1 hb hsub
        rcases hc with ⟨h1, h2⟩ | ⟨h1, h2⟩
        · have h3 := (hbo.1 h1).1
          simp [tickBody, samplePhase, pushPhase, hsub, h1, h2, h3]
        · simp [tickBody, samplePhase, pushPhase, hsub, h1, h2]
      | succ k =>
        simp only [List.getElem?_cons_succ] at hm
        have := ih (i + 1) k hok hm
        refine List.mem_append_right _ ?_
        have hidx : i + (k + 1) = i + 1 + k := by omega
        rw [hidx]
        exact this
    · simp [forEachMgr, hb] at hok

/-- C4: the calls of one tick are `SampleData`/`PushData` calls on managers of the list
and are in registry order: of two calls, the earlier is on a manager placed before the
manager of the later, or both are on the same manager, the earlier its `SampleData` and
the later its `PushData`. `PushRequired()` is evaluated after the sample of the tick: a
`PushData` is made on a subscribed manager, and when sampling was required on it, its
`SampleData()` was called in the tick and reported OK and `PushRequired()` holds on the
manager as `SampleData()` left it (when sampling was not required, on the manager as it
was); in a tick that runs to its end, `PushData` is made on every such manager. -/
theorem RunCoreTick_registry_order (s : StirlingImpl D) (clock_ns : Int) :
    ((RunCoreTick s clock_ns).calls.Pairwise fun a b => a.precedes b = true) ∧
    (∀ e ∈ (RunCoreTick s clock_ns).calls, ∃ k, k < s.info_class_mgrs_.length ∧
      (e = Event.SampleData k ∨ e = Event.PushData k s.agent_callback_)) ∧
    (∀ k cb, Event.PushData k cb ∈ (RunCoreTick s clock_ns).calls →
      ∃ m, s.info_class_mgrs_[k]? = some m ∧ D.subscribed m = true ∧
        ((D.SamplingRequired m = true ∧ Event.SampleData k ∈ (RunCoreTick s clock_ns).calls ∧
            (D.SampleData m).1.ok = true ∧ D.PushRequired (D.SampleData m).2 = true) ∨
          (D.SamplingRequired m = false ∧ D.PushRequired m = true))) ∧
    ((RunCoreTick s clock_ns).exit ≠ Outcome.fatal →
      ∀ k m, s.info_class_mgrs_[k]? = some m → D.subscribed m = true →
        ((D.SamplingRequired m = true ∧ D.PushRequired (D.SampleData m).2 = true) ∨
          (D.SamplingRequired m = false ∧ D.PushRequired m = true)) →
        Event.PushData k s.agent_callback_ ∈ (RunCoreTick s clock_ns).calls) := by
  obtain ⟨hcalls, hexit⟩ := RunCoreTick_loop s clock_ns
  rw [hcalls]
  refine ⟨forEachMgr_tickBody_pairwise _ _ _, fun e he => ?_, fun k cb h => ?_,
    fun hne k m hm hsub hc => ?_⟩
  · obtain ⟨k, -, hk2, hk3⟩ := forEachMgr_tickBody_slot _ _ _ e he
    exact ⟨k, by omega, hk3⟩
  · obtain ⟨-, -, m, hm, h1, h2⟩ := forEachMgr_tickBody_push_state _ _ _ _ _ h
    exact ⟨m, by simpa using hm, h1, h2⟩
  · have hok : (forEachMgr (tickBody s.agent_callback_) 0 s.info_class_mgrs_).ok = true := by
      by_contra hok
      exact hne (hexit.2 (by simpa using hok))
    have := forEachMgr_tickBody_pushed s.agent_callback_ s.info_class_mgrs_ 0 k m hok hm
      hsub hc
    simpa using this

/-- Evaluation of C4 on two subscribed managers, the first with no row buffered:
`PushRequired()` is false on it before the tick, and the tick calls its `PushData` after
its `SampleData()`, on the state that call left. -/
theorem RunCoreTick_registry_order_witness :
    specDeps.PushRequired { specMgr 1 true 0 true with rows := 0 } = false ∧
    (RunCoreTick (specStirling unfilledMgrs []) 0).calls =
      [Event.SampleData 0, Event.PushData 0 (7 : Nat), Event.SampleData 1,
       Event.PushData 1 7] ∧
    ((RunCoreTick (specStirling unfilledMgrs []) 0).calls.Pairwise
      fun a b => a.precedes b = true) ∧
    (∃ m, (specStirling unfilledMgrs []).info_class_mgrs_[0]? = some m ∧
      specDeps.subscribed m = true ∧
      ((specDeps.SamplingRequired m = true ∧
          Event.SampleData 0 ∈ (RunCoreTick (specStirling unfilledMgrs []) 0).calls ∧
          (specDeps.SampleData m).1.ok = true ∧
          specDeps.PushRequired (specDeps.SampleData m).2 = true) ∨
        (specDeps.SamplingRequired m = false ∧ specDeps.PushRequired m = true))) :=
  ⟨by decide, by decide, (RunCoreTick_registry_order (specStirling unfilledMgrs []) 0).1,
    (RunCoreTick_registry_order (specStirling unfilledMgrs []) 0).2.2.1 0 7 (by decide)⟩

/-- C6, counterexample: two subscribed managers, both due for sampling and for pushing;
`SampleData` of the first reports an error. The tick ends at that call, with neither the
push of the first manager nor any call on the second, and `RunCore` ends there too: no
later tick is run. -/
theorem RunCore_sample_error_stops :
    (specDeps.SampleData (specMgr 1 true 0 false)).1.ok = false ∧
    specDeps.PushRequired (specDeps.SampleData (specMgr 1 true 0 false)).2 = true ∧
    specDeps.SamplingRequired (specMgr 2 true 0 true) = true ∧
    (RunCoreTick (specStirlingRunning failingMgrs) 0).exit = Outcome.fatal ∧
    (RunCoreTick (specStirlingRunning failingMgrs) 0).calls = [Event.SampleData 0] ∧
    (RunCore (quietEnv specDeps) 5 0 (specStirlingRunning failingMgrs)).exit = Outcome.fatal ∧
    (RunCore (quietEnv specDeps) 5 0 (specStirlingRunning failingMgrs)).calls
      = [Event.SampleData 0] := by
  decide

/-- C6, amended: when a `SampleData()` called in a tick reports an error, the scheduler
terminates there: the check ends the process, that call is the last call of the tick (no
push phase for that manager, no call on the remaining managers), and `RunCore` ends with
the calls of that tick, running no later tick. -/
theorem RunCore_sample_error_fatal (env : Env D) (fuel k : Nat) (s : StirlingImpl D)
    (i : Nat) (m : D.Mgr) (hm : s.info_class_mgrs_[i]? = some m)
    (hcall : Event.SampleData i ∈ (RunCoreTick s (env.clock k)).calls)
    (herr : (D.SampleData m).1.ok = false) :
    (RunCoreTick s (env.clock k)).exit = Outcome.fatal ∧
    (RunCoreTick s (env.clock k)).calls.getLast? = some (Event.SampleData i) ∧
    (s.run_enable_ = true →
      (RunCore env (fuel + 1) k s).exit = Outcome.fatal ∧
      (RunCore env (fuel + 1) k s).calls = (RunCoreTick s (env.clock k)).calls) := by
  obtain ⟨hcalls, hexit⟩ := RunCoreTick_loop s (env.clock k)
  rw [hcalls] at hcall
  obtain ⟨h1, h2⟩ := forEachMgr_tickBody_error s.agent_callback_ s.info_class_mgrs_ 0 i m
    hcall (by simpa using hm) herr
  have hfatal := hexit.2 h1
  refine ⟨hfatal, by rw [hcalls]; exact h2, fun hrun => ?_⟩
  simp [RunCore, hrun, hfatal]

/-- Evaluation of C6, amended, on the input of the counterexample. -/
theorem RunCore_sample_error_fatal_witness :
    (RunCoreTick (specStirlingRunning failingMgrs) ((quietEnv specDeps).clock 0)).exit
      = Outcome.fatal ∧
    (RunCoreTick (specStirlingRunning failingMgrs) ((quietEnv specDeps).clock 0)).calls.getLast?
      = some (Event.SampleData 0) ∧
    ((specStirlingRunning failingMgrs).run_enable_ = true →
      (RunCore (quietEnv specDeps) (4 + 1) 0 (specStirlingRunning failingMgrs)).exit
        = Outcome.fatal ∧
      (RunCore (quietEnv specDeps) (4 + 1) 0 (specStirlingRunning failingMgrs)).calls =
        (RunCoreTick (specStirlingRunning failingMgrs) ((quietEnv specDeps).clock 0)).calls) :=
  RunCore_sample_error_fatal (quietEnv specDeps) 4 0 (specStirlingRunning failingMgrs) 0
    (specMgr 1 true 0 false) (by decide) (by decide) (by decide)

/-- The loop of `CreateSourceConnectors`: unless a check ends the process, it runs to its
end and appends, for the registry entries whose connector was initialised and in their
order, the connector to `sources_` and the manager built to `info_class_mgrs_`. -/
theorem addSources_spec (srcs : List (String × RegistryElement D)) (s : StirlingImpl D) :
    (addSources s srcs).exit = Outcome.fatal ∨
    ((addSources s srcs).exit = Outcome.returned () ∧
      (addSources s srcs).state.info_class_mgrs_ =
        s.info_class_mgrs_ ++ (srcs.filter fun p => (initSource p).1.ok).map builtMgr ∧
      (addSources s srcs).state.sources_ =
        s.sources_ ++
          (srcs.filter fun p => (initSource p).1.ok).map (fun p => (initSource p).2)) := by
  induction srcs generalizing s with
  | nil => simp [addSources]
  | cons p rest ih =>
    obtain ⟨name, re⟩ := p
    by_cases hinit : (D.Init (re.create_source_fn name)).1.ok = true
    · by_cases hp : (D.PopulateSchemaFromSource (D.SetSourceConnector
          (D.Init (re.create_source_fn name)).2 (D.InfoClassManager name))).1.ok = true
      · rcases ih { s with
            sources_ := s.sources_ ++ [(D.Init (re.create_source_fn name)).2],
            info_class_mgrs_ := s.info_class_mgrs_ ++ [builtMgr (name, re)] }
          with h | ⟨h1, h2, h3⟩
        · left
          simp only [builtMgr, initSource] at h
          simp [addSources, AddSourceFromRegistry, hinit, hp, h]
        · right
          simp only [addSources, AddSourceFromRegistry, hinit, hp, if_true]
          simp only [builtMgr, initSource] at h1 h2 h3 ⊢
          refine ⟨h1, ?_, ?_⟩
          · rw [h2]; simp [List.filter_cons, hinit, initSource, builtMgr]
          · rw [h3]; simp [List.filter_cons, hinit, initSource]
      · left
        simp [addSources, AddSourceFromRegistry, hinit, hp]
    · rcases ih s with h | ⟨h1, h2, h3⟩
      · left
        simp [addSources, AddSourceFromRegistry, hinit, h]
      · right
        simp only [addSources, AddSourceFromRegistry, hinit, Bool.false_eq_true, if_false]
        refine ⟨h1, ?_, ?_⟩
        · rw [h2]; simp [List.filter_cons, hinit, initSource]
        · rw [h3]; simp [List.filter_cons, hinit, initSource]

/-- The loop of `CreateSourceConnectors` runs to its end when `PopulateSchemaFromSource`
succeeds on every manager built. -/
theorem addSources_returns (srcs : List (String × RegistryElement D)) (s : StirlingImpl D)
    (hpop : ∀ p ∈ srcs, (initSource p).1.ok = true → populateOk p = true) :
    (addSources s srcs).exit = Outcome.returned () := by
  induction srcs generalizing s with
  | nil => simp [addSources]
  | cons p rest ih =>
    obtain ⟨name, re⟩ := p
    have hrest : ∀ q ∈ rest, (initSource q).1.ok = true → populateOk q = true :=
      fun q hq => hpop q (List.mem_cons_of_mem _ hq)
    by_cases hinit : (D.Init (re.create_source_fn name)).1.ok = true
    · have hp : (D.PopulateSchemaFromSource (D.SetSourceConnector
          (D.Init (re.create_source_fn name)).2 (D.InfoClassManager name))).1.ok = true :=
        hpop (name, re) (List.mem_cons_self _ _) hinit
      simp [addSources, AddSourceFromRegistry, hinit, hp, ih _ hrest]
    · simp [addSources, AddSourceFromRegistry, hinit, ih _ hrest]

/-- The loop of `CreateSourceConnectors` ends the process when `PopulateSchemaFromSource`
reports an error on the manager built for a source whose connector was initialised. -/
theorem addSources_fatal (srcs : List (String × RegistryElement D)) (s : StirlingImpl D)
    (h : ∃ p ∈ srcs, (initSource p).1.ok = true ∧ populateOk p = false) :
    (addSources s srcs).exit = Outcome.fatal := by
  induction srcs generalizing s with
  | nil => simp at h
  | cons q rest ih =>
    obtain ⟨name, re⟩ := q
    by_cases hinit : (D.Init (re.create_source_fn name)).1.ok = true
    · by_cases hp : (D.PopulateSchemaFromSource (D.SetSourceConnector
          (D.Init (re.create_source_fn name)).2 (D.InfoClassManager name))).1.ok = true
      · have hrest : ∃ p ∈ rest, (initSource p).1.ok = true ∧ populateOk p = false := by
          obtain ⟨p, hp1, hp2, hp3⟩ := h
          rcases List.mem_cons.1 hp1 with rfl | hp1
          · simp only [populateOk, initSource] at hp3
            rw [hp] at hp3
            cases hp3
          · exact ⟨p, hp1, hp2, hp3⟩
        simp [addSources, AddSourceFromRegistry, hinit, hp, ih _ hrest]
      · simp [addSources, AddSourceFromRegistry, hinit, hp]
    · have hrest : ∃ p ∈ rest, (initSource p).1.ok = true ∧ populateOk p = false := by
        obtain ⟨p, hp1, hp2, hp3⟩ := h
        rcases List.mem_cons.1 hp1 with rfl | hp1
        · simp only [initSource] at hp2
          exact absurd hp2 hinit
        · exact ⟨p, hp1, hp2, hp3⟩
      simp [addSources, AddSourceFromRegistry, hinit, ih _ hrest]

/-- With a registry, `Init` returns OK when `PopulateSchemaFromSource` succeeds on every
manager built, and has appended one entry to the manager list and to the sources list
for each registry source whose connector was initialised, in registry order. -/
theorem Init_returns (s : StirlingImpl D) (srcs : List (String × RegistryElement D))
    (h : s.registry_ = some srcs)
    (hpop : ∀ p ∈ srcs, (initSource p).1.ok = true → populateOk p = true) :
    (Init s).exit = Outcome.returned Status.OK ∧
    (Init s).state.info_class_mgrs_ =
      s.info_class_mgrs_ ++ (srcs.filter fun p => (initSource p).1.ok).map builtMgr ∧
    (Init s).state.sources_ =
      s.sources_ ++
        (srcs.filter fun p => (initSource p).1.ok).map (fun p => (initSource p).2) := by
  have hret := addSources_returns srcs s hpop
  rcases addSources_spec srcs s with hf | ⟨h1, h2, h3⟩
  · rw [hret] at hf
    cases hf
  · simp [Init, CreateSourceConnectors, h, h1, h2, h3, Status.ok, Status.OK]

/-- C7: with a null registry `Init` returns `NotFound` and changes nothing. With a
registry, `Init` returns no error, whatever the number of connectors that fail to
initialise: the process ends exactly when `PopulateSchemaFromSource` reports an error on
the manager built for a source whose connector was initialised (the check of
`AddSourceFromRegistry`), and otherwise `Init` returns OK and has appended to the manager
list (and to the sources list) exactly one entry for each registry source whose connector
`Init()` succeeded, in registry iteration order, the manager being the one built for that
source with the sampling and push periods of its registry element; a source whose
`Init()` fails adds nothing. On a collector whose lists are empty, as the constructor
leaves them, these entries are all the lists contain. With managers whose
`PopulateSchemaFromSource` reports no error, as section 4.2 of the specification
describes them (`specDeps`), `Init` on a new collector returns OK for every registry, and
the managers are those of the sources whose connector was initialised, in registry
order, with the names and the periods of the registry. -/
theorem Init_contract (s : StirlingImpl D) :
    (s.registry_ = none →
      (Init s).exit = Outcome.returned (error.NotFound "Source registry doesn't exist") ∧
      (Init s).state = s) ∧
    (∀ srcs, s.registry_ = some srcs →
      ((Init s).exit = Outcome.fatal ↔
        ∃ p ∈ srcs, (initSource p).1.ok = true ∧ populateOk p = false) ∧
      ((Init s).exit = Outcome.fatal ∨ (Init s).exit = Outcome.returned Status.OK) ∧
      ((∀ p ∈ srcs, (initSource p).1.ok = true → populateOk p = true) →
        (Init s).exit = Outcome.returned Status.OK ∧
        (Init s).state.info_class_mgrs_ =
          s.info_class_mgrs_ ++ (srcs.filter fun p => (initSource p).1.ok).map builtMgr ∧
        (Init s).state.sources_ =
          s.sources_ ++
            (srcs.filter fun p => (initSource p).1.ok).map (fun p => (initSource p).2) ∧
        (s.info_class_mgrs_ = [] → s.sources_ = [] →
          (Init s).state.info_class_mgrs_ =
            (srcs.filter fun p => (initSource p).1.ok).map builtMgr ∧
          (Init s).state.sources_ =
            (srcs.filter fun p => (initSource p).1.ok).map (fun p => (initSource p).2)))) ∧
    (∀ (srcs : List (String × RegistryElement specDeps)) (cb : Nat),
      (Init (StirlingImpl.create (some srcs) cb)).exit = Outcome.returned Status.OK ∧
      ((Init (StirlingImpl.create (some srcs) cb)).state.info_class_mgrs_.map
          fun m => (m.name, m.sampling_period, m.push_period)) =
        (srcs.filter fun p => (p.2.create_source_fn p.1).init_ok).map
          (fun p => (p.1, p.2.sampling_period, p.2.push_period)) ∧
      (Init (StirlingImpl.create (some srcs) cb)).state.sources_ =
        (srcs.filter fun p => (p.2.create_source_fn p.1).init_ok).map
          (fun p => { p.2.create_source_fn p.1 with initialized := true })) := by
  refine ⟨?_, ?_, ?_⟩
  · intro h
    simp [Init, CreateSourceConnectors, h, error.NotFound, Status.ok]
  · intro srcs h
    have hfatal : (addSources s srcs).exit = Outcome.fatal → (Init s).exit = Outcome.fatal := by
      intro hf
      simp [Init, CreateSourceConnectors, h, hf]
    refine ⟨⟨fun hf => ?_, fun hex => hfatal (addSources_fatal srcs s hex)⟩, ?_,
      fun hpop => ?_⟩
    · by_contra hne
      have hpop : ∀ p ∈ srcs, (initSource p).1.ok = true → populateOk p = true := by
        intro p hp hi
        by_contra hpo
        exact hne ⟨p, hp, hi, by simpa using hpo⟩
      rw [(Init_returns s srcs h hpop).1] at hf
      cases hf
    · rcases addSources_spec srcs s with hf | ⟨h1, -, -⟩
      · exact Or.inl (hfatal hf)
      · right
        simp [Init, CreateSourceConnectors, h, h1, Status.ok, Status.OK]
    · obtain ⟨k1, k2, k3⟩ := Init_returns s srcs h hpop
      refine ⟨k1, k2, k3, fun e1 e2 => ?_⟩
      rw [k2, k3, e1, e2]
      simp
  · intro srcs cb
    have hinit : (fun p : String × RegistryElement specDeps => (initSource p).1.ok) =
        fun p => (p.2.create_source_fn p.1).init_ok := by
      funext p
      simp only [initSource]
      cases hc : (p.2.create_source_fn p.1).init_ok <;> simp [hc, Status.ok, Status.OK]
    obtain ⟨k1, k2, k3⟩ := Init_returns (StirlingImpl.create (some srcs) cb) srcs rfl
      (fun _ _ _ => rfl)
    rw [hinit] at k2 k3
    refine ⟨k1, ?_, ?_⟩
    · rw [k2]
      simp only [StirlingImpl.create, List.nil_append, List.map_map]
      exact List.map_congr_left fun p _ => rfl
    · rw [k3]
      simp only [StirlingImpl.create, List.nil_append]
      refine List.map_congr_left fun p hp => ?_
      have hok : (p.2.create_source_fn p.1).init_ok = true := by
        simpa using (List.mem_filter.1 hp).2
      simp [initSource, hok]

/-- Evaluation of C7 on a new collector whose registry has the sources "a", "bad" and
"b", the connector of "bad" failing to initialise: `Init` returns OK, and the managers are
those of "a" and "b", in this order, with the periods of their registry elements; with no
registry `Init` returns `NotFound`. -/
theorem Init_contract_witness :
    ((Init (StirlingImpl.create (some specRegistry) (7 : Nat))).exit
      = Outcome.returned Status.OK ∧
     (Init (StirlingImpl.create (some specRegistry) (7 : Nat))).state.info_class_mgrs_ =
       (specRegistry.filter fun p => (initSource p).1.ok).map builtMgr ∧
     (Init (StirlingImpl.create (some specRegistry) (7 : Nat))).state.sources_ =
       (specRegistry.filter fun p => (initSource p).1.ok).map (fun p => (initSource p).2)) ∧
    ((Init (StirlingImpl.create (some specRegistry) (7 : Nat))).state.info_class_mgrs_.map
        fun m => (m.name, m.sampling_period, m.push_period)) =
      [("a", 10, 20), ("b", 5, 50)] ∧
    ((Init (StirlingImpl.create (some specRegistry) (7 : Nat))).calls =
      [Event.source_Init "a", Event.source_Init "bad", Event.log_warning "bad",
       Event.source_Init "b"]) ∧
    (Init (StirlingImpl.create (none : Option (List (String × RegistryElement specDeps)))
        (7 : Nat))).exit
      = Outcome.returned ⟨Code.NOT_FOUND, "Source registry doesn't exist"⟩ :=
  ⟨⟨(((Init_contract (StirlingImpl.create (some specRegistry) (7 : Nat))).2.1 specRegistry
      rfl).2.2 (by decide)).1,
    (((Init_contract (StirlingImpl.create (some specRegistry) (7 : Nat))).2.1 specRegistry
      rfl).2.2 (by decide)).2.2.2 rfl rfl⟩,
    by decide, by decide,
    ((Init_contract (StirlingImpl.create
      (none : Option (List (String × RegistryElement specDeps))) (7 : Nat))).1 rfl).1⟩

/-- A `SampleData` call of the loop of `RunCore` is made on a subscribed manager for which
`SamplingRequired()` holds. -/
theorem forEachMgr_tickBody_sample (cb : D.Callback) (mgrs : List D.Mgr) (i k : Nat)
    (h : Event.SampleData k ∈ (forEachMgr (tickBody cb) i mgrs).calls) :
    i ≤ k ∧ ∃ m, mgrs[k - i]? = some m ∧ D.subscribed m = true ∧
      D.SamplingRequired m = true := by
  induction mgrs generalizing i with
  | nil => simp [forEachMgr] at h
  | cons m rest ih =>
    have hbody : Event.SampleData k ∈ (tickBody cb i m).calls →
        i ≤ k ∧ ∃ x, (m :: rest)[k - i]? = some x ∧ D.subscribed x = true ∧
          D.SamplingRequired x = true := by
      intro hb
      rw [tickBody_calls] at hb
      rcases List.mem_append.1 hb with hb | hb
      · split at hb
        · rename_i hc
          simp only [List.mem_singleton, Event.SampleData.injEq] at hb
          subst hb
          simp only [Bool.and_eq_true] at hc
          exact ⟨le_refl _, m, by simp, hc.1, hc.2⟩
        · simp at hb
      · split at hb <;> simp at hb
    by_cases hok : (tickBody cb i m).ok = true
    · simp only [forEachMgr, hok, if_true, List.mem_append] at h
      rcases h with h | h
      · exact hbody h
      · obtain ⟨h1, x, hx, hx2, hx3⟩ := ih (i + 1) h
        have hidx : k - i = (k - (i + 1)) + 1 := by omega
        exact ⟨by omega, x, by rw [hidx, List.getElem?_cons_succ]; exact hx, hx2, hx3⟩
    · simp only [forEachMgr, hok, Bool.false_eq_true, if_false] at h
      exact hbody h

/-- C13: in a tick, a manager whose `subscribed()` is false is neither sampled nor pushed,
whatever `SamplingRequired()` and `PushRequired()` return: the calls of the tick hold no
`SampleData` and no `PushData` on it. -/
theorem RunCoreTick_skips_unsubscribed (s : StirlingImpl D) (now : Int) (i : Nat)
    (m : D.Mgr) (hm : s.info_class_mgrs_[i]? = some m) (hsub : D.subscribed m = false) :
    Event.SampleData i ∉ (RunCoreTick s now).calls ∧
    (∀ cb, Event.PushData i cb ∉ (RunCoreTick s now).calls) ∧
    (RunCoreTick s now).calls.countP (Event.isSampleOf i) = 0 ∧
    (RunCoreTick s now).calls.countP (Event.isPushOf i) = 0 := by
  obtain ⟨hcalls, -⟩ := RunCoreTick_loop s now
  rw [hcalls]
  have h1 : Event.SampleData i ∉
      (forEachMgr (tickBody s.agent_callback_) 0 s.info_class_mgrs_).calls := by
    intro h
    obtain ⟨-, x, hx, hx2, -⟩ := forEachMgr_tickBody_sample _ _ _ _ h
    simp only [Nat.sub_zero] at hx
    rw [hm] at hx
    cases hx
    rw [hsub] at hx2
    cases hx2
  have h2 : ∀ cb, Event.PushData i cb ∉
      (forEachMgr (tickBody s.agent_callback_) 0 s.info_class_mgrs_).calls := by
    intro cb h
    obtain ⟨-, -, x, hx, hx2, -⟩ := forEachMgr_tickBody_push _ _ _ _ _ h
    simp only [Nat.sub_zero] at hx
    rw [hm] at hx
    cases hx
    rw [hsub] at hx2
    cases hx2
  refine ⟨h1, h2, ?_, ?_⟩
  · rw [List.countP_eq_zero]
    intro e he hp
    cases e <;> simp [Event.isSampleOf] at hp
    subst hp
    exact h1 he
  · rw [List.countP_eq_zero]
    intro e he hp
    cases e <;> simp [Event.isPushOf] at hp
    subst hp
    exact h2 _ he

/-- Evaluation of C13 with managers whose `SamplingRequired()` and `PushRequired()` hold
whether they are subscribed or not: the second of three managers, not subscribed but due
for sampling and pushing, gets no call in the tick. -/
theorem RunCoreTick_skips_unsubscribed_witness :
    eagerDeps.SamplingRequired (specMgr 2 false 0 true) = true ∧
    eagerDeps.PushRequired (specMgr 2 false 0 true) = true ∧
    (RunCoreTick (eagerStirling threeMgrs) 0).calls =
      [Event.SampleData 0, Event.PushData 0 (7 : Nat), Event.SampleData 2,
       Event.PushData 2 7] ∧
    Event.SampleData 1 ∉ (RunCoreTick (eagerStirling threeMgrs) 0).calls ∧
    (∀ cb, Event.PushData 1 cb ∉ (RunCoreTick (eagerStirling threeMgrs) 0).calls) :=
  ⟨by decide, by decide, by decide,
    (RunCoreTick_skips_unsubscribed (eagerStirling threeMgrs) 0 1 (specMgr 2 false 0 true)
      (by decide) (by decide)).1,
    (RunCoreTick_skips_unsubscribed (eagerStirling threeMgrs) 0 1 (specMgr 2 false 0 true)
      (by decide) (by decide)).2.1⟩

/-- C14: `Stop` sets `run_enable_` to false, and called again leaves it false. `RunCore`
entered with `run_enable_` false runs no tick, makes no call and returns. When `Stop` is
called during a tick, so that `run_enable_` is false at the next test of the loop,
`RunCore` returns after that tick and its sleep, with no further tick. -/
theorem Stop_ends_RunCore (env : Env D) (fuel k : Nat) (s : StirlingImpl D) :
    (Stop s).run_enable_ = false ∧
    Stop (Stop s) = Stop s ∧
    (s.run_enable_ = false →
      (RunCore env fuel k s).exit = Outcome.returned true ∧
      (RunCore env fuel k s).calls = [] ∧
      (RunCore env fuel k s).state = s) ∧
    ((RunCore env fuel k (Stop s)).exit = Outcome.returned true ∧
      (RunCore env fuel k (Stop s)).calls = [] ∧
      (RunCore env fuel k (Stop s)).state = Stop s) ∧
    (∀ d, s.run_enable_ = true →
      (RunCoreTick s (env.clock k)).exit = Outcome.returned d →
      (env.between k (RunCoreTick s (env.clock k)).state).run_enable_ = false →
      (RunCore env (fuel + 1) k s).exit = Outcome.returned true ∧
      (RunCore env (fuel + 1) k s).calls =
        (RunCoreTick s (env.clock k)).calls ++ SleepForDuration d ∧
      (RunCore env (fuel + 1) k s).state =
        env.between k (RunCoreTick s (env.clock k)).state) := by
  have hoff : ∀ (n j : Nat) (x : StirlingImpl D), x.run_enable_ = false →
      (RunCore env n j x).exit = Outcome.returned true ∧
      (RunCore env n j x).calls = [] ∧ (RunCore env n j x).state = x := by
    intro n j x hx
    cases n <;> simp [RunCore, hx]
  refine ⟨rfl, rfl, hoff fuel k s, hoff fuel k (Stop s) rfl, fun d hrun htick hstop => ?_⟩
  obtain ⟨h1, h2, h3⟩ := hoff fuel (k + 1) _ hstop
  simp [RunCore, hrun, htick, h1, h2, h3]

set_option maxRecDepth 8192 in
/-- Evaluation of C14 on a running collector with one subscribed manager that is due,
`Stop` being called during the first tick: `RunCore` makes the calls of that tick, sleeps
until the next sampling time and returns. -/
theorem Stop_ends_RunCore_witness :
    (specStirlingRunning [specMgr 1 true 0 true]).run_enable_ = true ∧
    (RunCore (stoppingEnv specDeps) (4 + 1) 0
      (specStirlingRunning [specMgr 1 true 0 true])).exit = Outcome.returned true ∧
    (RunCore (stoppingEnv specDeps) (4 + 1) 0
      (specStirlingRunning [specMgr 1 true 0 true])).calls =
      (RunCoreTick (specStirlingRunning [specMgr 1 true 0 true])
        ((stoppingEnv specDeps).clock 0)).calls ++ SleepForDuration 10 ∧
    (RunCore (stoppingEnv specDeps) (4 + 1) 0
      (specStirlingRunning [specMgr 1 true 0 true])).calls =
      [Event.SampleData 0, Event.PushData 0 (7 : Nat), Event.sleep_for 10] :=
  ⟨rfl,
    ((Stop_ends_RunCore (stoppingEnv specDeps) 4 0
      (specStirlingRunning [specMgr 1 true 0 true])).2.2.2.2
      10 rfl (by decide) (by decide)).1,
    ((Stop_ends_RunCore (stoppingEnv specDeps) 4 0
      (specStirlingRunning [specMgr 1 true 0 true])).2.2.2.2
      10 rfl (by decide) (by decide)).2.1,
    by decide⟩

/-- A 64-bit count that holds a value of its range holds that value. -/
theorem wrap64_eq (x : Int) (h1 : milliseconds_min ≤ x) (h2 : x ≤ milliseconds_max) :
    wrap64 x = x := by
  have hmm : milliseconds_max = 2 ^ 63 - 1 := rfl
  have hmin : milliseconds_min = -(2 ^ 63) := rfl
  unfold wrap64
  omega

/-- The reading of a 64-bit nanosecond clock, cast to milliseconds, is between
-9223372036854 and 9223372036854, and is not negative when the reading is not. -/
theorem millisecondsOfNanoseconds_bounds (ns : Int) (h1 : -(2 ^ 63) ≤ ns)
    (h2 : ns ≤ 2 ^ 63 - 1) :
    -9223372036854 ≤ millisecondsOfNanoseconds ns ∧
    millisecondsOfNanoseconds ns ≤ 9223372036854 ∧
    (0 ≤ ns → 0 ≤ millisecondsOfNanoseconds ns) := by
  unfold millisecondsOfNanoseconds
  rcases le_or_lt 0 ns with h | h
  · rw [Int.tdiv_eq_ediv h (by decide)]
    omega
  · have h3 : ns.tdiv 1000000 = -((-ns).tdiv 1000000) := by
      rw [Int.neg_tdiv, neg_neg]
    rw [h3, Int.tdiv_eq_ediv (by omega) (by decide)]
    omega

/-- With no manager and a current time that is not negative, `TimeUntilNextTick` returns
the greatest millisecond duration minus the current time, without overflow, and this is
more than the threshold of 1 ms. -/
theorem TimeUntilNextTick_nil (s : StirlingImpl D) (clock_ns : Int)
    (hs : s.info_class_mgrs_ = []) (hnow : 0 ≤ millisecondsOfNanoseconds clock_ns)
    (hlo : -(2 ^ 63) ≤ clock_ns) (hhi : clock_ns ≤ 2 ^ 63 - 1) :
    TimeUntilNextTick s clock_ns = milliseconds_max - millisecondsOfNanoseconds clock_ns ∧
    milliseconds_min ≤ milliseconds_max - millisecondsOfNanoseconds clock_ns ∧
    milliseconds_max - millisecondsOfNanoseconds clock_ns ≤ milliseconds_max ∧
    kMinSleepDuration < milliseconds_max - millisecondsOfNanoseconds clock_ns := by
  obtain ⟨-, hb, -⟩ := millisecondsOfNanoseconds_bounds clock_ns hlo hhi
  have hmm : milliseconds_max = 2 ^ 63 - 1 := rfl
  have hmin : milliseconds_min = -(2 ^ 63) := rfl
  have hk : kMinSleepDuration = 1 := rfl
  have h1 : milliseconds_min ≤ milliseconds_max - millisecondsOfNanoseconds clock_ns := by
    omega
  have h2 : milliseconds_max - millisecondsOfNanoseconds clock_ns ≤ milliseconds_max := by
    omega
  refine ⟨?_, h1, h2, by omega⟩
  simp only [TimeUntilNextTick, hs, wakeupTime]
  exact wrap64_eq _ h1 h2

/-- With no manager, a tick makes no call, leaves the collector as it is and returns the
value of `TimeUntilNextTick`. -/
theorem RunCoreTick_nil (s : StirlingImpl D) (clock_ns : Int)
    (hs : s.info_class_mgrs_ = []) :
    (RunCoreTick s clock_ns).calls = [] ∧
    (RunCoreTick s clock_ns).state = s ∧
    (RunCoreTick s clock_ns).exit = Outcome.returned (TimeUntilNextTick s clock_ns) := by
  cases s
  simp only at hs
  subst hs
  simp [RunCoreTick, forEachMgr, TimeUntilNextTick]

/-- With no manager, a clock that is not negative and no other thread at work, the loop
of `RunCore` does nothing but sleep, once in every iteration. -/
theorem RunCore_nil (env : Env D) (fuel k : Nat) (s : StirlingImpl D)
    (hs : s.info_class_mgrs_ = []) (hrun : s.run_enable_ = true)
    (hclk : ∀ j, 0 ≤ millisecondsOfNanoseconds (env.clock j) ∧ -(2 ^ 63) ≤ env.clock j ∧
      env.clock j ≤ 2 ^ 63 - 1)
    (hquiet : ∀ j x, env.between j x = x) :
    (RunCore env fuel k s).calls =
      (List.range fuel).map fun j =>
        Event.sleep_for (milliseconds_max - millisecondsOfNanoseconds (env.clock (k + j))) := by
  induction fuel generalizing k with
  | zero => simp [RunCore]
  | succ n ih =>
    obtain ⟨t1, t2, t3⟩ := RunCoreTick_nil s (env.clock k) hs
    obtain ⟨c1, c2, c3⟩ := hclk k
    obtain ⟨u1, -, -, u4⟩ := TimeUntilNextTick_nil s (env.clock k) hs c1 c2 c3
    rw [u1] at t3
    have hsleep : (SleepForDuration
        (milliseconds_max - millisecondsOfNanoseconds (env.clock k)) :
          List (Event D.Callback)) =
        [Event.sleep_for (milliseconds_max - millisecondsOfNanoseconds (env.clock k))] := by
      simp [SleepForDuration, u4]
    simp only [RunCore, hrun, if_true, t3, t1, t2, hquiet, List.nil_append, hsleep, ih (k + 1),
      List.range_succ_eq_map, List.map_cons, List.map_map, List.singleton_append,
      Nat.add_zero, List.cons.injEq, true_and]
    refine List.map_congr_left fun j _ => ?_
    simp [Nat.add_assoc, Nat.add_comm 1 j]

/-- C15: with a registry of zero sources `Init` returns OK and yields an empty manager
list. With an empty manager list every tick makes no call, and `TimeUntilNextTick`
returns the 64-bit difference of the greatest millisecond duration and the current time
`now` (the reading of the 64-bit nanosecond clock cast to milliseconds). For `now` not
negative the difference does not overflow: the result is the greatest duration minus
`now` and is greater than the threshold of 1 ms, so `SleepForDuration` sleeps for it, and
the loop of `RunCore` does nothing but sleep, once in every iteration. -/
theorem zero_sources_idle (cb : D.Callback) (s : StirlingImpl D) (clock_ns : Int)
    (hs : s.info_class_mgrs_ = []) :
    ((Init (StirlingImpl.create (some []) cb)).exit = Outcome.returned Status.OK ∧
      (Init (StirlingImpl.create (some []) cb)).state.info_class_mgrs_ = []) ∧
    (RunCoreTick s clock_ns).calls = [] ∧
    (RunCoreTick s clock_ns).exit = Outcome.returned (TimeUntilNextTick s clock_ns) ∧
    TimeUntilNextTick s clock_ns =
      wrap64 (milliseconds_max - millisecondsOfNanoseconds clock_ns) ∧
    (0 ≤ millisecondsOfNanoseconds clock_ns → -(2 ^ 63) ≤ clock_ns → clock_ns ≤ 2 ^ 63 - 1 →
      TimeUntilNextTick s clock_ns = milliseconds_max - millisecondsOfNanoseconds clock_ns ∧
      (milliseconds_min ≤ milliseconds_max - millisecondsOfNanoseconds clock_ns ∧
        milliseconds_max - millisecondsOfNanoseconds clock_ns ≤ milliseconds_max) ∧
      kMinSleepDuration < TimeUntilNextTick s clock_ns ∧
      (SleepForDuration (TimeUntilNextTick s clock_ns) : List (Event D.Callback)) =
        [Event.sleep_for (milliseconds_max - millisecondsOfNanoseconds clock_ns)]) ∧
    (∀ (env : Env D) (fuel k : Nat), s.run_enable_ = true →
      (∀ j, 0 ≤ millisecondsOfNanoseconds (env.clock j) ∧ -(2 ^ 63) ≤ env.clock j ∧
        env.clock j ≤ 2 ^ 63 - 1) →
      (∀ j x, env.between j x = x) →
      (RunCore env fuel k s).calls =
        (List.range fuel).map fun j =>
          Event.sleep_for
            (milliseconds_max - millisecondsOfNanoseconds (env.clock (k + j)))) := by
  obtain ⟨t1, -, t3⟩ := RunCoreTick_nil s clock_ns hs
  refine ⟨?_, t1, t3, by simp [TimeUntilNextTick, hs, wakeupTime], fun hnow hlo hhi => ?_,
    fun env fuel k hrun hclk hquiet => RunCore_nil env fuel k s hs hrun hclk hquiet⟩
  · simp [Init, CreateSourceConnectors, StirlingImpl.create, addSources, Status.ok,
      Status.OK]
  · obtain ⟨u1, u2, u3, u4⟩ := TimeUntilNextTick_nil s clock_ns hs hnow hlo hhi
    refine ⟨u1, ⟨u2, u3⟩, by rw [u1]; exact u4, ?_⟩
    rw [u1]
    simp [SleepForDuration, u4]

set_option maxRecDepth 8192 in
/-- Evaluation of C15 at the clock reading 1700000000000000000 ns, the current time
1700000000000 ms (in the year 2023): the scheduler sleeps for 9223370336854775807 ms. -/
theorem zero_sources_idle_witness :
    (0 : Int) ≤ millisecondsOfNanoseconds 1700000000000000000 ∧
    millisecondsOfNanoseconds 1700000000000000000 = 1700000000000 ∧
    TimeUntilNextTick (specStirling [] []) 1700000000000000000 = 9223370336854775807 ∧
    kMinSleepDuration < TimeUntilNextTick (specStirling [] []) 1700000000000000000 ∧
    (SleepForDuration (TimeUntilNextTick (specStirling [] []) 1700000000000000000) :
      List (Event Nat)) =
      [Event.sleep_for (milliseconds_max - millisecondsOfNanoseconds 1700000000000000000)] :=
  ⟨by decide, by decide, by decide,
    ((zero_sources_idle (7 : Nat) (specStirling [] []) 1700000000000000000 rfl).2.2.2.2.1
      (by decide) (by decide) (by decide)).2.2.1,
    ((zero_sources_idle (7 : Nat) (specStirling [] []) 1700000000000000000 rfl).2.2.2.2.1
      (by decide) (by decide) (by decide)).2.2.2⟩

/-- The table generation loop of `SetSubscription`: one table for each subscribed manager,
in list order, made from the schema of that manager, with consecutive new allocation
identities, and attached to that manager; a manager that is not subscribed is left as it
is. -/
theorem generateTables_spec (mgrs : List D.Mgr) (i next : Nat) :
    ((generateTables i next mgrs : Tables D).tables.map fun t => t.schema) =
      (mgrs.filter D.subscribed).map D.Schema_of ∧
    ((generateTables i next mgrs : Tables D).tables.map fun t => t.obj) =
      List.range' next (mgrs.countP D.subscribed) ∧
    (generateTables i next mgrs : Tables D).heap_next = next + mgrs.countP D.subscribed ∧
    (generateTables i next mgrs : Tables D).mgrs.length = mgrs.length ∧
    (∀ (k : Nat) (m : D.Mgr), mgrs[k]? = some m → D.subscribed m = false →
      (generateTables i next mgrs : Tables D).mgrs[k]? = some m) ∧
    (∀ (k : Nat) (m : D.Mgr), mgrs[k]? = some m → D.subscribed m = true →
      (generateTables i next mgrs : Tables D).tables[(mgrs.take k).countP D.subscribed]? =
        some ⟨next + (mgrs.take k).countP D.subscribed, D.Schema_of m⟩ ∧
      (generateTables i next mgrs : Tables D).mgrs[k]? =
        some (D.SetDataTable ⟨next + (mgrs.take k).countP D.subscribed, D.Schema_of m⟩ m)) := by
  induction mgrs generalizing i next with
  | nil => simp [generateTables]
  | cons m0 rest ih =>
    by_cases hsub : D.subscribed m0 = true
    · obtain ⟨h1, h2, h3, h4, h5, h6⟩ := ih (i + 1) (next + 1)
      simp only [generateTables, hsub, if_true]
      refine ⟨?_, ?_, ?_, ?_, ?_, ?_⟩
      · simp [List.filter_cons, hsub, h1]
      · simp [List.countP_cons, hsub, h2, List.range'_succ]
      · simp only [h3, List.countP_cons, hsub, if_true]
        omega
      · simp [h4]
      · intro k m hk hm
        cases k with
        | zero =>
          simp only [List.getElem?_cons_zero, Option.some.injEq] at hk
          subst hk
          rw [hsub] at hm
          cases hm
        | succ k =>
          rw [List.getElem?_cons_succ] at hk ⊢
          exact h5 k m hk hm
      · intro k m hk hm
        cases k with
        | zero =>
          simp only [List.getElem?_cons_zero, Option.some.injEq] at hk
          subst hk
          simp
        | succ k =>
          rw [List.getElem?_cons_succ] at hk
          obtain ⟨ha, hb⟩ := h6 k m hk hm
          have hidx : next + 1 + List.countP D.subscribed (List.take k rest) =
              next + (List.countP D.subscribed (List.take k rest) + 1) := by omega
          rw [hidx] at ha hb
          simp only [List.take_succ_cons, List.countP_cons, hsub, if_true,
            List.getElem?_cons_succ]
          exact ⟨ha, hb⟩
    · obtain ⟨h1, h2, h3, h4, h5, h6⟩ := ih (i + 1) next
      simp only [generateTables, hsub, Bool.false_eq_true, if_false]
      refine ⟨?_, ?_, ?_, ?_, ?_, ?_⟩
      · simp [List.filter_cons, hsub, h1]
      · simp [List.countP_cons, hsub, h2]
      · simp [h3, List.countP_cons, hsub]
      · simp [h4]
      · intro k m hk hm
        cases k with
        | zero =>
          simp only [List.getElem?_cons_zero, Option.some.injEq] at hk
          subst hk
          simp
        | succ k =>
          rw [List.getElem?_cons_succ] at hk ⊢
          exact h5 k m hk hm
      · intro k m hk hm
        cases k with
        | zero =>
          simp only [List.getElem?_cons_zero, Option.some.injEq] at hk
          subst hk
          exact absurd hm hsub
        | succ k =>
          rw [List.getElem?_cons_succ] at hk
          obtain ⟨ha, hb⟩ := h6 k m hk hm
          simp only [List.take_succ_cons, List.countP_cons, hsub, Bool.false_eq_true,
            if_false, Nat.add_zero, List.getElem?_cons_succ]
          exact ⟨ha, hb⟩

/-- A `SetSubscription` that returns OK has flushed, cleared, applied the subscription and
run the table generation loop on the updated managers, starting from an empty table
list. -/
theorem SetSubscription_returned (s : StirlingImpl D) (sub : D.Subscribe)
    (hok : (SetSubscription s sub).exit = Outcome.returned Status.OK) :
    (SetSubscription s sub).state.tables_ =
      (generateTables 0 s.heap_next (updatedMgrs s sub) : Tables D).tables ∧
    (SetSubscription s sub).state.info_class_mgrs_ =
      (generateTables 0 s.heap_next (updatedMgrs s sub) : Tables D).mgrs ∧
    (SetSubscription s sub).state.heap_next =
      (generateTables 0 s.heap_next (updatedMgrs s sub) : Tables D).heap_next := by
  by_cases hl : (forEachMgr (flushBody s.agent_callback_) 0 s.info_class_mgrs_).ok = true
  · have hm := ((forEachMgr_flushBody s.agent_callback_ s.info_class_mgrs_ 0).2 hl).2
    by_cases hu : (D.UpdateSchemaFromSubscribe sub
        (flushedMgrs s.agent_callback_ s.info_class_mgrs_)).1.ok = true
    · simp [SetSubscription, hl, hm, hu, updatedMgrs]
    · simp [SetSubscription, hl, hm, hu] at hok
  · simp [SetSubscription, hl] at hok

/-- When `SetDataTable` leaves the subscription flag of a manager, the table generation
loop leaves the number of subscribed managers. -/
theorem generateTables_countP (mgrs : List D.Mgr) (i next : Nat)
    (hset : ∀ t m, D.subscribed (D.SetDataTable t m) = D.subscribed m) :
    (generateTables i next mgrs : Tables D).mgrs.countP D.subscribed =
      mgrs.countP D.subscribed := by
  induction mgrs generalizing i next with
  | nil => simp [generateTables]
  | cons m0 rest ih =>
    by_cases hsub : D.subscribed m0 = true
    · simp [generateTables, hsub, List.countP_cons, hset, ih]
    · simp [generateTables, hsub, List.countP_cons, ih]

/-- C17: after a `SetSubscription` that returns OK, the tables list holds exactly one
table for each manager that is subscribed after the update, in registry order, made from
the schema of that manager and attached to it with `SetDataTable`; every table was
allocated during the call, so none is a table from before the call; the number of tables
is the number of subscribed managers. A manager that is not subscribed after the update
is left as the update left it. -/
theorem SetSubscription_tables (s : StirlingImpl D) (sub : D.Subscribe)
    (hok : (SetSubscription s sub).exit = Outcome.returned Status.OK) :
    (((SetSubscription s sub).state.tables_.map fun t => t.schema) =
      ((updatedMgrs s sub).filter D.subscribed).map D.Schema_of) ∧
    (((SetSubscription s sub).state.tables_.map fun t => t.obj) =
      List.range' s.heap_next ((updatedMgrs s sub).countP D.subscribed)) ∧
    (∀ t ∈ (SetSubscription s sub).state.tables_, s.heap_next ≤ t.obj) ∧
    (s.heapOk → ∀ t ∈ (SetSubscription s sub).state.tables_, t ∉ s.tables_) ∧
    (s.heapOk → (SetSubscription s sub).state.heapOk) ∧
    (SetSubscription s sub).state.tables_.length =
      (updatedMgrs s sub).countP D.subscribed ∧
    (SetSubscription s sub).state.info_class_mgrs_.length = (updatedMgrs s sub).length ∧
    (∀ (k : Nat) (m : D.Mgr), (updatedMgrs s sub)[k]? = some m → D.subscribed m = false →
      (SetSubscription s sub).state.info_class_mgrs_[k]? = some m) ∧
    (∀ (k : Nat) (m : D.Mgr), (updatedMgrs s sub)[k]? = some m → D.subscribed m = true →
      ∃ t, (SetSubscription s sub).state.tables_[
            ((updatedMgrs s sub).take k).countP D.subscribed]? = some t ∧
        t.schema = D.Schema_of m ∧
        (SetSubscription s sub).state.info_class_mgrs_[k]? = some (D.SetDataTable t m)) ∧
    ((∀ t m, D.subscribed (D.SetDataTable t m) = D.subscribed m) →
      (SetSubscription s sub).state.tables_.length =
        (SetSubscription s sub).state.info_class_mgrs_.countP D.subscribed) := by
  obtain ⟨ht, hm, hn⟩ := SetSubscription_returned s sub hok
  obtain ⟨g1, g2, g3, g4, g5, g6⟩ := generateTables_spec (updatedMgrs s sub) 0 s.heap_next
  rw [ht, hm]
  have hlen : (generateTables 0 s.heap_next (updatedMgrs s sub) : Tables D).tables.length =
      (updatedMgrs s sub).countP D.subscribed := by
    have := congrArg List.length g2
    simpa using this
  have hnew : ∀ t ∈ (generateTables 0 s.heap_next (updatedMgrs s sub) : Tables D).tables,
      s.heap_next ≤ t.obj ∧ t.obj < s.heap_next + (updatedMgrs s sub).countP D.subscribed := by
    intro t htm
    have hmem : t.obj ∈ ((generateTables 0 s.heap_next (updatedMgrs s sub) :
        Tables D).tables.map fun t => t.obj) := List.mem_map_of_mem _ htm
    rw [g2, List.mem_range'_1] at hmem
    exact hmem
  refine ⟨g1, g2, fun t htm => (hnew t htm).1, fun hheap t htm hold => ?_, fun hheap => ?_,
    hlen, g4, g5, fun k m hk hsub => ?_, fun hset => ?_⟩
  · have h1 := (hnew t htm).1
    have h2 := hheap t hold
    omega
  · intro t htm
    rw [ht] at htm
    rw [hn, g3]
    exact (hnew t htm).2
  · obtain ⟨ha, hb⟩ := g6 k m hk hsub
    exact ⟨_, ha, rfl, hb⟩
  · rw [hlen, generateTables_countP _ _ _ hset]

/-- Evaluation of C17 on three managers, the first and the third subscribed, with one old
table, and a Subscribe message that selects the first manager only: afterwards the tables
list holds one new table, made from the schema of the first manager and attached to it,
and not the old table. -/
theorem SetSubscription_tables_witness :
    (SetSubscription (specStirling threeMgrs [oldTable]) subscribeOne).exit
      = Outcome.returned Status.OK ∧
    (SetSubscription (specStirling threeMgrs [oldTable]) subscribeOne).state.tables_
      = [⟨100, ["time_", "value"]⟩] ∧
    ((SetSubscription (specStirling threeMgrs [oldTable]) subscribeOne).state.info_class_mgrs_.map
      fun m => (m.subscribed, m.table)) =
      [(true, some ⟨100, ["time_", "value"]⟩), (false, none), (false, none)] ∧
    (∀ t ∈ (SetSubscription (specStirling threeMgrs [oldTable]) subscribeOne).state.tables_,
      t ∉ (specStirling threeMgrs [oldTable]).tables_) ∧
    (SetSubscription (specStirling threeMgrs [oldTable]) subscribeOne).state.tables_.length =
      (SetSubscription (specStirling threeMgrs [oldTable])
        subscribeOne).state.info_class_mgrs_.countP specDeps.subscribed :=
  ⟨by decide, by decide, by decide,
    (SetSubscription_tables (specStirling threeMgrs [oldTable]) subscribeOne
      (by decide)).2.2.2.1 (by simp [StirlingImpl.heapOk, specStirling, oldTable]),
    (SetSubscription_tables (specStirling threeMgrs [oldTable]) subscribeOne
      (by decide)).2.2.2.2.2.2.2.2.2 (fun _ _ => rfl)⟩

end pl.stirling
